import Mathlib

/-!
Verification of the Book2Audible chunk-processing core against its
natural-language specification.

The definitions below are a shallow embedding, translated from the Python
sources under `src/`:
  * `src/core/text_processor.py`   (TextProcessor.clean_text, chunk_long_text)
  * `src/core/audio_verifier.py`   (AudioVerifier._compare_texts, _normalize_text)
  * `src/core/audio_processor.py`  (AudioProcessor.stitch_audio_chunks)
  * `src/core/chunk_database.py`   (ChunkDatabase: create_chunk,
        update_chunk_status, insert_chunk_at_position, create_audio_version,
        create_chapter_audio_version)
  * `src/core/chunk_manager.py`    (ChunkManager.restitch_chapter_audio)
  * `src/core/processor.py`        (Book2AudioProcessor._process_single_chapter)

Python strings are embedded as `List Char` / `String`; Python floats that
only ever hold exact ratios of small integers are embedded as `ℚ`;
SQLite tables are embedded as lists of records inside an explicit
database-file state.  External capabilities (the TTS service, the pydub
audio library, NLTK's sentence tokenizer, the filesystem) are parameters
of the functions that consume them, so every theorem quantifies over all
possible behaviours of those collaborators.
-/

namespace Book2Audible

/-! ### Python string primitives

ASCII embedding of the Python `str` operations used by the sources.
`\s` / `str.strip` / `str.split` in CPython also accept some non-ASCII
whitespace; the embedding covers the ASCII whitespace characters, which
is faithful for every input appearing in the theorems below. -/

/-- Python regex class `\s`, restricted to ASCII whitespace. -/
def pySpace (c : Char) : Bool :=
  c = ' ' || c = '\t' || c = '\n' || c = '\r' || c = '\x0b' || c = '\x0c'

/-- Python regex class `\w` (word character), restricted to ASCII:
letters, digits and underscore. -/
def pyWordChar (c : Char) : Bool :=
  c.isAlphanum || c = '_'

/-- Python `str.lower` on an ASCII character. -/
def pyLowerChar (c : Char) : Char :=
  if 'A' ≤ c ∧ c ≤ 'Z' then Char.ofNat (c.toNat + 32) else c

/-- Python `str.strip()`: remove leading and trailing whitespace. -/
def pyStrip (l : List Char) : List Char :=
  ((l.dropWhile pySpace).reverse.dropWhile pySpace).reverse

/-- Python `str.strip()` on a `String`. -/
def pyStripS (s : String) : String :=
  ⟨pyStrip s.data⟩

/-- Worker for `pySplit`: `tok` is the current token, reversed. -/
def pySplitGo (tok : List Char) : List Char → List (List Char)
  | [] => if tok.isEmpty then [] else [tok.reverse]
  | c :: cs =>
    if pySpace c then
      if tok.isEmpty then pySplitGo [] cs else tok.reverse :: pySplitGo [] cs
    else pySplitGo (c :: tok) cs

/-- Python `str.split()` with no argument: split on whitespace runs,
dropping empty tokens. -/
def pySplit (l : List Char) : List (List Char) :=
  pySplitGo [] l

/-- Worker for `pyReplace`: replace occurrences of `p :: ps` left to
right, non-overlapping, as Python `str.replace` does.  The `fuel`
argument only bounds the recursion structurally; every match consumes at
least one character, so `fuel = l.length` can never run out. -/
def pyReplaceGo (p : Char) (ps rep : List Char) : Nat → List Char → List Char
  | _, [] => []
  | 0, l => l
  | fuel + 1, c :: cs =>
    if (c :: cs).take (ps.length + 1) = p :: ps then
      rep ++ pyReplaceGo p ps rep fuel ((c :: cs).drop (ps.length + 1))
    else c :: pyReplaceGo p ps rep fuel cs

/-- Python `str.replace(pat, rep)` for a non-empty pattern. -/
def pyReplace (pat rep l : List Char) : List Char :=
  match pat with
  | [] => l
  | p :: ps => pyReplaceGo p ps rep l.length l

end Book2Audible

namespace Book2Audible

/-! ### `TextProcessor.clean_text` (src/core/text_processor.py, lines 140-176)

Each step below embeds one `re.sub` of the source, in source order. -/

/-- Step 1, `re.sub(r'[""„"«»]', '"', text)`: the raw pattern in the
source file concatenates to the character class `""„"«»`, i.e. the
characters `"`, `„` (U+201E), `«` (U+00AB), `»` (U+00BB); each is
replaced by a plain double quote. -/
def quoteNorm (c : Char) : Char :=
  if c = '"' || c = '„' || c = '«' || c = '»' then '"' else c

/-- Step 2, `re.sub(r'[–—]', '-', text)`: en/em dashes to hyphen. -/
def dashNorm (c : Char) : Char :=
  if c = '–' || c = '—' then '-' else c

/-- Worker for step 3: the flag records whether the previous character
was part of a dot run already emitted. -/
def collapseDotsGo : Bool → List Char → List Char
  | _, [] => []
  | inRun, c :: cs =>
    if c = '.' then
      if inRun then collapseDotsGo true cs else '.' :: collapseDotsGo true cs
    else c :: collapseDotsGo false cs

/-- Step 3, `re.sub(r'\.{2,}', '.', text)`: every maximal run of two or
more dots becomes one dot (a run of one dot is already one dot). -/
def collapseDots (l : List Char) : List Char :=
  collapseDotsGo false l

/-- The punctuation class `[,.!?;:]` of step 4. -/
def punctClass (c : Char) : Bool :=
  c = ',' || c = '.' || c = '!' || c = '?' || c = ';' || c = ':'

/-- Worker for step 4: `pend` buffers (reversed) the current whitespace
run; it is dropped when the run is followed by a punctuation character. -/
def rmWsBeforePunctGo (pend : List Char) : List Char → List Char
  | [] => pend.reverse
  | c :: cs =>
    if pySpace c then rmWsBeforePunctGo (c :: pend) cs
    else if punctClass c then c :: rmWsBeforePunctGo [] cs
    else pend.reverse ++ c :: rmWsBeforePunctGo [] cs

/-- Step 4, `re.sub(r'\s+([,.!?;:])', r'\1', text)`: remove every
whitespace run that immediately precedes a punctuation character. -/
def rmWsBeforePunct (l : List Char) : List Char :=
  rmWsBeforePunctGo [] l

/-- The sentence-ending class `[.!?]` of step 5. -/
def sentPunct (c : Char) : Bool :=
  c = '.' || c = '!' || c = '?'

/-- The literal ASCII class `[A-Z]` of step 5. -/
def upperAZ (c : Char) : Bool :=
  'A' ≤ c && c ≤ 'Z'

/-- Worker for step 5: `cand = some (p, ws)` means a sentence-ending
character `p` has been read, followed so far by the (reversed)
whitespace buffer `ws`, and we are waiting to see whether a capital
letter follows. -/
def sentSpaceGo : Option (Char × List Char) → List Char → List Char
  | none, [] => []
  | none, c :: cs =>
    if sentPunct c then sentSpaceGo (some (c, [])) cs
    else c :: sentSpaceGo none cs
  | some (p, ws), [] => p :: ws.reverse
  | some (p, ws), c :: cs =>
    if pySpace c then sentSpaceGo (some (p, c :: ws)) cs
    else if upperAZ c then p :: ' ' :: c :: sentSpaceGo none cs
    else if sentPunct c then p :: ws.reverse ++ sentSpaceGo (some (c, [])) cs
    else p :: ws.reverse ++ c :: sentSpaceGo none cs

/-- Step 5, `re.sub(r'([.!?])\s*([A-Z])', r'\1 \2', text)`: a sentence
ending followed by optional whitespace and a capital is rewritten with
exactly one space. -/
def sentSpace (l : List Char) : List Char :=
  sentSpaceGo none l

/-- Worker for step 6: the flag records whether we are inside a
whitespace run whose single replacement space was already emitted. -/
def collapseWsGo : Bool → List Char → List Char
  | _, [] => []
  | inRun, c :: cs =>
    if pySpace c then
      if inRun then collapseWsGo true cs else ' ' :: collapseWsGo true cs
    else c :: collapseWsGo false cs

/-- Step 6, `re.sub(r'\s+', ' ', text)`: collapse every whitespace run
to a single space. -/
def collapseWs (l : List Char) : List Char :=
  collapseWsGo false l

/-- Step 7, the allow-list of `re.sub(r"[^\w\s.,!?;:()'-]", '', text)`. -/
def allowChar (c : Char) : Bool :=
  pyWordChar c || pySpace c || c = '.' || c = ',' || c = '!' || c = '?' ||
    c = ';' || c = ':' || c = '(' || c = ')' || c = Char.ofNat 39 || c = '-'

/-- Worker for step 8: after a `(` the following whitespace run is
dropped. -/
def fixParenOpenGo : Bool → List Char → List Char
  | _, [] => []
  | after, c :: cs =>
    if after && pySpace c then fixParenOpenGo true cs
    else if c = '(' then '(' :: fixParenOpenGo true cs
    else c :: fixParenOpenGo false cs

/-- Step 8, `re.sub(r'\(\s+', '(', text)`. -/
def fixParenOpen (l : List Char) : List Char :=
  fixParenOpenGo false l

/-- Worker for step 9: like `rmWsBeforePunctGo` but only for `)`. -/
def fixParenCloseGo (pend : List Char) : List Char → List Char
  | [] => pend.reverse
  | c :: cs =>
    if pySpace c then fixParenCloseGo (c :: pend) cs
    else if c = ')' then ')' :: fixParenCloseGo [] cs
    else pend.reverse ++ c :: fixParenCloseGo [] cs

/-- Step 9, `re.sub(r'\s+\)', ')', text)`. -/
def fixParenClose (l : List Char) : List Char :=
  fixParenCloseGo [] l

/-- Case-insensitive (ASCII) equality of two character lists. -/
def ciEq : List Char → List Char → Bool
  | [], [] => true
  | x :: xs, y :: ys => pyLowerChar x = pyLowerChar y && ciEq xs ys
  | _, _ => false

/-- Embeds `\b` test for the character preceding a candidate match
(`none` = start of string). -/
def atWordBoundary (prev : Option Char) : Bool :=
  match prev with
  | none => true
  | some p => !pyWordChar p

/-- Embeds `\b` test for the characters following a candidate match. -/
def wordBoundaryAfter (rest : List Char) : Bool :=
  match rest with
  | [] => true
  | c :: _ => !pyWordChar c

/-- Worker for `subWordCI`: scan with the previous original character in
`prev`; on a whole-word case-insensitive match of `p :: ps`, emit `rep`
and resume after the matched region (re.sub does not rescan the
replacement).  The `fuel` argument only bounds the recursion
structurally; every step consumes at least one character, so
`fuel = l.length` can never run out. -/
def subWordCIGo (p : Char) (ps rep : List Char) :
    Option Char → Nat → List Char → List Char
  | _, _, [] => []
  | _, 0, l => l
  | prev, fuel + 1, c :: cs =>
    if atWordBoundary prev && ciEq ((c :: cs).take (ps.length + 1)) (p :: ps)
        && wordBoundaryAfter ((c :: cs).drop (ps.length + 1)) then
      rep ++ subWordCIGo p ps rep (((c :: cs).take (ps.length + 1)).getLast?)
        fuel ((c :: cs).drop (ps.length + 1))
    else c :: subWordCIGo p ps rep (some c) fuel cs

/-- Step 10 primitive, `re.sub(r'\b' + us + r'\b', au, text,
flags=re.IGNORECASE)`: whole-word, case-insensitive substitution. -/
def subWordCI (pat rep l : List Char) : List Char :=
  match pat with
  | [] => l
  | p :: ps => subWordCIGo p ps rep none l.length l

/-- The `au_spellings` dictionary of `TextProcessor.__init__`, in
insertion (iteration) order. -/
def auSpellings : List (String × String) :=
  [("color", "colour"), ("favor", "favour"), ("honor", "honour"),
   ("labor", "labour"), ("organize", "organise"), ("recognize", "recognise"),
   ("realize", "realise"), ("analyze", "analyse"), ("center", "centre"),
   ("theater", "theatre")]

/-- Step 10, the `for us_spelling, au_spelling in self.au_spellings.items()`
loop. -/
def applyAuSpellings (l : List Char) : List Char :=
  auSpellings.foldl (fun acc pr => subWordCI pr.1.data pr.2.data acc) l

/-- Step 12, `if text and not text[-1] in '.!?': text += '.'`. -/
def ensureEndPunct (l : List Char) : List Char :=
  match l.getLast? with
  | none => l
  | some c => if sentPunct c then l else l ++ ['.']

/-- Embeds `TextProcessor.clean_text`: the full cleaning pipeline, steps in
source order (quotes, dashes, ellipses, space-before-punctuation,
space-after-sentence-end, whitespace collapse, character allow-list,
parenthesis fixes, regional spellings, strip, final punctuation). -/
def clean_text (s : String) : String :=
  let t := s.data.map quoteNorm
  let t := t.map dashNorm
  let t := collapseDots t
  let t := rmWsBeforePunct t
  let t := sentSpace t
  let t := collapseWs t
  let t := t.filter allowChar
  let t := fixParenOpen t
  let t := fixParenClose t
  let t := applyAuSpellings t
  let t := pyStrip t
  ⟨ensureEndPunct t⟩

end Book2Audible

namespace Book2Audible

/-! ### `TextProcessor.chunk_long_text` (src/core/text_processor.py, lines 178-213)

`nltk.sent_tokenize` is an external tokenizer; it is passed in as the
parameter `tokenize`, so the theorems hold for every possible sentence
tokenization. -/

/-- The sentence-packing loop of `chunk_long_text`: `current` is the
`current_chunk` accumulator (`""` initially); a sentence is appended to
the current chunk when the joined length stays within `maxLength`,
otherwise the stripped current chunk is emitted and the sentence starts
a new chunk; the final non-blank chunk is emitted after the loop. -/
def packSentences (maxLength : Nat) (current : String) :
    List String → List String
  | [] => if pyStripS current = "" then [] else [pyStripS current]
  | s :: rest =>
    if current = "" then packSentences maxLength s rest
    else if (current ++ " " ++ s).length ≤ maxLength then
      packSentences maxLength (current ++ " " ++ s) rest
    else pyStripS current :: packSentences maxLength s rest

/-- Embeds `TextProcessor.chunk_long_text(text, max_length)`: texts within the
limit are returned whole; longer texts are split into sentences by the
external tokenizer and greedily packed (the source's trailing
`final_chunks` loop only logs a warning and copies the list). -/
def chunk_long_text (tokenize : String → List String)
    (text : String) (maxLength : Nat) : List String :=
  if text.length ≤ maxLength then [text]
  else packSentences maxLength "" (tokenize text)

end Book2Audible

namespace Book2Audible

/-! ### Claims C5 and C6: behaviour of `clean_text` -/

/-- C5 (counterexample).  Cleaning `"organize the colour scheme"` does
not yield exactly `"organise the colour scheme"`: the final
punctuation-enforcement step of `clean_text` appends a period, so the
claimed output is off by the trailing `'.'`. -/
theorem C5_clean_spelling_counterexample :
    clean_text "organize the colour scheme" ≠ "organise the colour scheme" := by
  decide

/-- C5 (amended).  Cleaning `"organize the colour scheme"` with the
regional-spelling rule active yields exactly
`"organise the colour scheme."`: the US spelling is converted to the
target locale, already-correct words are unchanged, and the
sentence-ending rule appends a terminal period. -/
theorem C5_clean_spelling_amended :
    clean_text "organize the colour scheme" = "organise the colour scheme." := by
  decide

/-- C6.  The cleaning function is not idempotent, contrary to the
specification: on `"a. ."` the first pass removes the space before the
final dot (producing `"a.."`) only after the ellipsis-collapsing step has
already run, so a second pass collapses `".."` to `"."` and changes the
string again. -/
theorem C6_clean_not_idempotent :
    clean_text (clean_text "a. .") ≠ clean_text "a. ." ∧
      clean_text "a. ." = "a.." ∧ clean_text (clean_text "a. .") = "a." := by
  refine ⟨by decide, by decide, by decide⟩

/-! ### Claim C7: sentence-safe packing of `chunk_long_text` -/

/-- Embeds `s₁ ++ " " ++ s₂ ++ … ++ " " ++ sₖ`, exactly as the
`current_chunk += " " + sentence` loop accumulates it. -/
def joinSp (g : List String) : String :=
  match g with
  | [] => ""
  | s :: rest => rest.foldl (fun acc t => acc ++ " " ++ t) s

theorem joinSp_append_singleton (g : List String) (hg : g ≠ []) (t : String) :
    joinSp (g ++ [t]) = joinSp g ++ " " ++ t := by
  match g, hg with
  | s :: rest, _ =>
    simp only [joinSp, List.cons_append, List.foldl_append, List.foldl_cons,
      List.foldl_nil]

theorem pyStrip_length_le (l : List Char) : (pyStrip l).length ≤ l.length := by
  unfold pyStrip
  calc ((l.dropWhile pySpace).reverse.dropWhile pySpace).reverse.length
      = ((l.dropWhile pySpace).reverse.dropWhile pySpace).length :=
        List.length_reverse _
    _ ≤ (l.dropWhile pySpace).reverse.length :=
        (List.dropWhile_sublist _).length_le
    _ = (l.dropWhile pySpace).length := List.length_reverse _
    _ ≤ l.length := (List.dropWhile_sublist _).length_le

theorem pyStripS_length_le (s : String) : (pyStripS s).length ≤ s.length :=
  pyStrip_length_le s.data

/-- The property every chunk emitted by the packing loop satisfies:
it is (the stripped form of) a space-join of whole sentences drawn from
`all`, and it is within the length limit unless it is a single
(stripped) sentence. -/
def GoodChunk (all : List String) (maxLength : Nat) (c : String) : Prop :=
  (∃ g : List String, g ≠ [] ∧ (∀ s ∈ g, s ∈ all) ∧ c = pyStripS (joinSp g)) ∧
    (c.length ≤ maxLength ∨ ∃ s ∈ all, c = pyStripS s)

/-- Invariant carried by the `current_chunk` accumulator. -/
def CurInv (all : List String) (maxLength : Nat) (current : String) : Prop :=
  current = "" ∨
    ∃ g : List String, g ≠ [] ∧ (∀ s ∈ g, s ∈ all) ∧ current = joinSp g ∧
      (g.length = 1 ∨ current.length ≤ maxLength)

theorem goodChunk_of_curInv (all : List String) (maxLength : Nat)
    (current : String) (h : CurInv all maxLength current) (hne : current ≠ "") :
    GoodChunk all maxLength (pyStripS current) := by
  rcases h with h | ⟨g, hg, hmem, hcur, hlen⟩
  · exact absurd h hne
  constructor
  · exact ⟨g, hg, hmem, by rw [hcur]⟩
  · rcases hlen with h1 | h2
    · match g, hg, h1 with
      | [s], _, _ =>
        refine Or.inr ⟨s, hmem s (by simp), ?_⟩
        rw [hcur]; rfl
    · refine Or.inl ?_
      calc (pyStripS current).length ≤ current.length := pyStripS_length_le _
        _ ≤ maxLength := h2

theorem packSentences_good (all : List String) (maxLength : Nat) :
    ∀ (sents : List String), (∀ s ∈ sents, s ∈ all) →
    ∀ (current : String), CurInv all maxLength current →
    ∀ c ∈ packSentences maxLength current sents, GoodChunk all maxLength c := by
  intro sents
  induction sents with
  | nil =>
    intro _ current hcur c hc
    unfold packSentences at hc
    by_cases hne : pyStripS current = ""
    · rw [if_pos hne] at hc
      exact absurd hc (List.not_mem_nil c)
    · rw [if_neg hne] at hc
      have : current ≠ "" := by
        intro h; apply hne; rw [h]; rfl
      rw [List.mem_singleton.mp hc]
      exact goodChunk_of_curInv all maxLength current hcur this
  | cons s rest ih =>
    intro hmem current hcur c hc
    have hmem' : ∀ t ∈ rest, t ∈ all := fun t ht => hmem t (by simp [ht])
    have hs : s ∈ all := hmem s (by simp)
    unfold packSentences at hc
    by_cases h0 : current = ""
    · rw [if_pos h0] at hc
      refine ih hmem' s ?_ c hc
      exact Or.inr ⟨[s], by simp, by simpa using hs, rfl, Or.inl rfl⟩
    · rw [if_neg h0] at hc
      by_cases hfit : (current ++ " " ++ s).length ≤ maxLength
      · rw [if_pos hfit] at hc
        rcases hcur with h | ⟨g, hg, hgmem, hgcur, _⟩
        · exact absurd h h0
        refine ih hmem' (current ++ " " ++ s) ?_ c hc
        refine Or.inr ⟨g ++ [s], by simp, ?_, ?_, Or.inr hfit⟩
        · intro t ht
          rcases List.mem_append.mp ht with h | h
          · exact hgmem t h
          · rw [List.mem_singleton.mp h]
            exact hs
        · rw [joinSp_append_singleton g hg s, hgcur]
      · rw [if_neg hfit] at hc
        rcases List.mem_cons.mp hc with h | h
        · rw [h]
          exact goodChunk_of_curInv all maxLength current hcur h0
        · refine ih hmem' s ?_ c h
          exact Or.inr ⟨[s], by simp, by simpa using hs, rfl, Or.inl rfl⟩

/-- C7.  `chunk_long_text` returns `[text]` whenever the text fits in
`max_length`; otherwise, for every possible behaviour of the external
sentence tokenizer, every returned chunk is (the stripped form of) a
space-join of whole tokenizer sentences — so no sentence is ever split
across two chunks — and every returned chunk either fits in `max_length`
or is a single (stripped) oversized sentence kept intact. -/
theorem C7_chunk_long_text_sentence_safe
    (tokenize : String → List String) (text : String) (maxLength : Nat) :
    (text.length ≤ maxLength → chunk_long_text tokenize text maxLength = [text]) ∧
    ∀ c ∈ chunk_long_text tokenize text maxLength,
      GoodChunk (tokenize text) maxLength c ∨ c = text := by
  constructor
  · intro h
    unfold chunk_long_text
    rw [if_pos h]
  · intro c hc
    unfold chunk_long_text at hc
    by_cases h : text.length ≤ maxLength
    · rw [if_pos h] at hc
      exact Or.inr (List.mem_singleton.mp hc)
    · rw [if_neg h] at hc
      exact Or.inl (packSentences_good (tokenize text) maxLength (tokenize text)
        (fun _ ht => ht) "" (Or.inl rfl) c hc)

/-- C7 witness: the theorem applied at concrete inputs.  The short text
`"ab"` is returned whole; for the long text, the chunk `"aaaaa."` of the
packed output is certified `GoodChunk`. -/
theorem C7_chunk_long_text_witness :
    chunk_long_text (fun _ => ["x."]) "ab" 5 = ["ab"] ∧
      ("aaaaa." ∈ chunk_long_text (fun _ => ["aaaaa.", "bb."]) "aaaaa. bb." 3 ∧
        (GoodChunk ((fun (_ : String) => ["aaaaa.", "bb."]) "aaaaa. bb.") 3
            "aaaaa." ∨ "aaaaa." = "aaaaa. bb.")) :=
  ⟨(C7_chunk_long_text_sentence_safe (fun _ => ["x."]) "ab" 5).1 (by decide),
   by decide,
   (C7_chunk_long_text_sentence_safe (fun _ => ["aaaaa.", "bb."])
      "aaaaa. bb." 3).2 "aaaaa." (by decide)⟩

end Book2Audible

namespace Book2Audible

/-! ### Python `difflib` (used by `AudioVerifier._compare_texts`)

Embedding of `difflib.SequenceMatcher(None, a, b)` (no junk predicate,
`autojunk=True`) and `difflib.unified_diff(a, b, lineterm='')`, translated
from the CPython standard library, since `_compare_texts` delegates the
interesting work to them.  Queue- and while-loop recursions are bounded by
an explicit structural `fuel` that provably cannot run out (each loop
iteration strictly decreases a quantity bounded by the fuel). -/

/-- Ascending list of indices at which `x` occurs in `b` (the `b2j`
dictionary entries before the autojunk filter). -/
def occIndices {α : Type} [DecidableEq α] (b : List α) (x : α) : List Nat :=
  (b.enum.filter (fun pr => decide (pr.2 = x))).map (fun pr => pr.1)

/-- Embeds `self.b2j` lookup: with `autojunk=True` and `len(b) >= 200`, elements
occurring more than `len(b) // 100 + 1` times are treated as popular and
removed from the dictionary. -/
def b2jGet {α : Type} [DecidableEq α] (b : List α) (x : α) : List Nat :=
  let idxs := occIndices b x
  if b.length ≥ 200 ∧ idxs.length > b.length / 100 + 1 then [] else idxs

/-- With `junk=None` — the only way the sources construct a
`SequenceMatcher` — the junk set `self.bjunk` is empty. -/
def isbjunk {α : Type} (_ : α) : Bool := false

/-- The running best match of `find_longest_match`. -/
structure Best where
  besti : Nat
  bestj : Nat
  bestsize : Nat
deriving DecidableEq

/-- Embeds `j2len.get(key, 0)` on the association-list embedding of the dict
(`(j, k) ::` assignment shadows older entries, as a dict update does). -/
def dictGet (m : List (Nat × Nat)) (key : Nat) : Nat :=
  match m.find? (fun pr => decide (pr.1 = key)) with
  | some pr => pr.2
  | none => 0

/-- Inner loop of `find_longest_match`: `for j in b2j.get(a[i], [])` with
`continue` below `blo` and `break` at `bhi`; returns the new `j2len`
dict and the updated best match. -/
def flmScanJs (blo bhi i : Nat) (j2len : List (Nat × Nat)) :
    List Nat → List (Nat × Nat) → Best → List (Nat × Nat) × Best
  | [], newj2len, best => (newj2len, best)
  | j :: js, newj2len, best =>
    if j < blo then flmScanJs blo bhi i j2len js newj2len best
    else if j ≥ bhi then (newj2len, best)
    else
      let k := dictGet j2len (j - 1) + 1
      let newj2len' := (j, k) :: newj2len
      let best' := if k > best.bestsize then ⟨i + 1 - k, j + 1 - k, k⟩ else best
      flmScanJs blo bhi i j2len js newj2len' best'

/-- Outer loop of `find_longest_match`: `for i in range(alo, ahi)`. -/
def flmOuter {α : Type} (b2jf : α → List Nat) (a : List α) (blo bhi : Nat) :
    List Nat → List (Nat × Nat) → Best → Best
  | [], _, best => best
  | i :: is, j2len, best =>
    let js := match a.get? i with
      | some x => b2jf x
      | none => []
    let st := flmScanJs blo bhi i j2len js [] best
    flmOuter b2jf a blo bhi is st.1 st.2

/-- The two leftward `while` extension loops of `find_longest_match`
(`junkOk` is `not isbjunk(...)` for the first pair of loops and
`isbjunk(...)` for the second).  `fuel = besti` bounds the loop: each
iteration decrements `besti`, which stays above `alo`. -/
def flmExtendL {α : Type} [DecidableEq α] (a b : List α) (junkOk : α → Bool)
    (alo blo : Nat) : Nat → Best → Best
  | 0, best => best
  | fuel + 1, best =>
    if alo < best.besti ∧ blo < best.bestj then
      match a.get? (best.besti - 1), b.get? (best.bestj - 1) with
      | some x, some y =>
        if junkOk y && decide (x = y) then
          flmExtendL a b junkOk alo blo fuel
            ⟨best.besti - 1, best.bestj - 1, best.bestsize + 1⟩
        else best
      | _, _ => best
    else best

/-- The two rightward `while` extension loops of `find_longest_match`.
`fuel = ahi` bounds the loop: each iteration increments `bestsize` while
`besti + bestsize < ahi`. -/
def flmExtendR {α : Type} [DecidableEq α] (a b : List α) (junkOk : α → Bool)
    (ahi bhi : Nat) : Nat → Best → Best
  | 0, best => best
  | fuel + 1, best =>
    if best.besti + best.bestsize < ahi ∧ best.bestj + best.bestsize < bhi then
      match a.get? (best.besti + best.bestsize),
          b.get? (best.bestj + best.bestsize) with
      | some x, some y =>
        if junkOk y && decide (x = y) then
          flmExtendR a b junkOk ahi bhi fuel
            ⟨best.besti, best.bestj, best.bestsize + 1⟩
        else best
      | _, _ => best
    else best

/-- Embeds `SequenceMatcher.find_longest_match(alo, ahi, blo, bhi)`. -/
def findLongestMatch {α : Type} [DecidableEq α] (a b : List α)
    (b2jf : α → List Nat) (alo ahi blo bhi : Nat) : Best :=
  let best := flmOuter b2jf a blo bhi (List.range' alo (ahi - alo)) [] ⟨alo, blo, 0⟩
  let best := flmExtendL a b (fun y => !isbjunk y) alo blo best.besti best
  let best := flmExtendR a b (fun y => !isbjunk y) ahi bhi ahi best
  let best := flmExtendL a b isbjunk alo blo best.besti best
  let best := flmExtendR a b isbjunk ahi bhi ahi best
  best

/-- The LIFO queue loop of `get_matching_blocks`.  `fuel` bounds the
loop structurally: the sum over the queue of `(ahi-alo)+(bhi-blo)+1`
strictly decreases at every iteration, so `fuel = a.length + b.length + 1`
can never run out. -/
def gmbGo {α : Type} [DecidableEq α] (a b : List α) (b2jf : α → List Nat) :
    Nat → List (Nat × Nat × Nat × Nat) → List Best → List Best
  | _, [], acc => acc
  | 0, _, acc => acc
  | fuel + 1, queue, acc =>
    match queue.getLast? with
    | none => acc
    | some (alo, ahi, blo, bhi) =>
      let rest := queue.dropLast
      let x := findLongestMatch a b b2jf alo ahi blo bhi
      if x.bestsize ≠ 0 then
        let q1 := if alo < x.besti ∧ blo < x.bestj then
          rest ++ [(alo, x.besti, blo, x.bestj)] else rest
        let q2 := if x.besti + x.bestsize < ahi ∧ x.bestj + x.bestsize < bhi then
          q1 ++ [(x.besti + x.bestsize, ahi, x.bestj + x.bestsize, bhi)] else q1
        gmbGo a b b2jf fuel q2 (x :: acc)
      else gmbGo a b b2jf fuel rest acc

/-- Lexicographic order on matching-block triples, for the
`matching_blocks.sort()` call. -/
def tripLe (x y : Nat × Nat × Nat) : Bool :=
  x.1 < y.1 || (x.1 = y.1 &&
    (x.2.1 < y.2.1 || (x.2.1 = y.2.1 && x.2.2 ≤ y.2.2)))

/-- Insertion step of the sort. -/
def insSortedTrip (x : Nat × Nat × Nat) :
    List (Nat × Nat × Nat) → List (Nat × Nat × Nat)
  | [] => [x]
  | y :: ys => if tripLe x y then x :: y :: ys else y :: insSortedTrip x ys

/-- Embeds `matching_blocks.sort()`: ascending lexicographic sort. -/
def sortTriples (l : List (Nat × Nat × Nat)) : List (Nat × Nat × Nat) :=
  l.foldr insSortedTrip []

/-- The adjacent-block merging loop at the end of
`get_matching_blocks` (running accumulator `(i1, j1, k1)` starts at
`(0, 0, 0)`). -/
def mergeAdjGo (i1 j1 k1 : Nat) : List (Nat × Nat × Nat) → List (Nat × Nat × Nat)
  | [] => if k1 ≠ 0 then [(i1, j1, k1)] else []
  | (i2, j2, k2) :: rest =>
    if i1 + k1 = i2 ∧ j1 + k1 = j2 then mergeAdjGo i1 j1 (k1 + k2) rest
    else if k1 ≠ 0 then (i1, j1, k1) :: mergeAdjGo i2 j2 k2 rest
    else mergeAdjGo i2 j2 k2 rest

/-- Embeds `SequenceMatcher.get_matching_blocks()`: recursive longest-match
decomposition, sorted, adjacent blocks merged, and the `(la, lb, 0)`
sentinel appended. -/
def getMatchingBlocks {α : Type} [DecidableEq α] (a b : List α) :
    List (Nat × Nat × Nat) :=
  let raw := gmbGo a b (b2jGet b) (a.length + b.length + 1)
    [(0, a.length, 0, b.length)] []
  let sorted := sortTriples (raw.map (fun x => (x.besti, x.bestj, x.bestsize)))
  mergeAdjGo 0 0 0 sorted ++ [(a.length, b.length, 0)]

/-- Embeds `SequenceMatcher.ratio()`: `2*M / T` where `M` is the total size of
the matching blocks and `T` the total length; `1.0` when both sequences
are empty (`_calculate_ratio`). -/
def smRatio {α : Type} [DecidableEq α] (a b : List α) : ℚ :=
  let nMatched := ((getMatchingBlocks a b).map (fun t => t.2.2)).sum
  let total := a.length + b.length
  if total ≠ 0 then (2 * nMatched : ℚ) / (total : ℚ) else 1

/-- The opcode tags of `SequenceMatcher.get_opcodes()`. -/
inductive Tag where
  | equal
  | replace
  | delete
  | insert
deriving DecidableEq

/-- An opcode `(tag, i1, i2, j1, j2)`. -/
abbrev Opcode : Type := Tag × Nat × Nat × Nat × Nat

/-- The loop of `get_opcodes()` over the matching blocks. -/
def opcodesGo (i j : Nat) : List (Nat × Nat × Nat) → List Opcode
  | [] => []
  | (ai, bj, size) :: rest =>
    let tagged : List Opcode :=
      if i < ai ∧ j < bj then [(Tag.replace, i, ai, j, bj)]
      else if i < ai then [(Tag.delete, i, ai, j, bj)]
      else if j < bj then [(Tag.insert, i, ai, j, bj)]
      else []
    let eqPart : List Opcode :=
      if size ≠ 0 then [(Tag.equal, ai, ai + size, bj, bj + size)] else []
    tagged ++ eqPart ++ opcodesGo (ai + size) (bj + size) rest

/-- Embeds `SequenceMatcher.get_opcodes()`. -/
def getOpcodes {α : Type} [DecidableEq α] (a b : List α) : List Opcode :=
  opcodesGo 0 0 (getMatchingBlocks a b)

/-- The grouping loop of `get_grouped_opcodes(n)`: an `equal` opcode
spanning more than `2n` lines closes the current group and opens the
next one, keeping `n` context lines on each side. -/
def groupLoop (n : Nat) (group : List Opcode) : List Opcode → List (List Opcode)
  | [] =>
    if group.isEmpty then []
    else if group.length = 1 ∧ group.head?.map (fun oc => oc.1) = some Tag.equal
      then []
    else [group]
  | (tag, i1, i2, j1, j2) :: rest =>
    if tag = Tag.equal ∧ i2 - i1 > n + n then
      (group ++ [(tag, i1, min i2 (i1 + n), j1, min j2 (j1 + n))]) ::
        groupLoop n [(tag, max i1 (i2 - n), i2, max j1 (j2 - n), j2)] rest
    else groupLoop n (group ++ [(tag, i1, i2, j1, j2)]) rest

/-- Embeds `SequenceMatcher.get_grouped_opcodes(n)` (default `n = 3`): trims
the leading and trailing `equal` opcodes to `n` context lines, then
splits into groups. -/
def groupedOpcodes {α : Type} [DecidableEq α] (n : Nat) (a b : List α) :
    List (List Opcode) :=
  let codes0 := getOpcodes a b
  let codes1 := if codes0.isEmpty then [((Tag.equal, 0, 1, 0, 1) : Opcode)]
    else codes0
  let codes2 := match codes1 with
    | (Tag.equal, i1, i2, j1, j2) :: rest =>
      ((Tag.equal, max i1 (i2 - n), i2, max j1 (j2 - n), j2) : Opcode) :: rest
    | l => l
  let codes3 := match codes2.getLast? with
    | some (Tag.equal, i1, i2, j1, j2) =>
      codes2.dropLast ++ [((Tag.equal, i1, min i2 (i1 + n), j1, min j2 (j1 + n)) : Opcode)]
    | _ => codes2
  groupLoop n [] codes3

/-- Embeds `difflib._format_range_unified(start, stop)`. -/
def fmtRangeUnified (start stop : Nat) : String :=
  let beginning := start + 1
  let len := stop - start
  if len = 1 then toString beginning
  else
    let beginning' := if len = 0 then beginning - 1 else beginning
    toString beginning' ++ "," ++ toString len

/-- Python slice `l[i:j]`. -/
def sliceL {α : Type} (l : List α) (i j : Nat) : List α :=
  (l.drop i).take (j - i)

/-- The per-opcode line emission of `unified_diff`: context lines get a
single-space prefix, deleted lines a single `-`, inserted lines a
single `+` (never `"- "` / `"+ "`). -/
def opcodeLines (a b : List String) (oc : Opcode) : List String :=
  match oc with
  | (Tag.equal, i1, i2, _, _) => (sliceL a i1 i2).map (fun s => " " ++ s)
  | (Tag.replace, i1, i2, j1, j2) =>
    (sliceL a i1 i2).map (fun s => "-" ++ s) ++
      (sliceL b j1 j2).map (fun s => "+" ++ s)
  | (Tag.delete, i1, i2, _, _) => (sliceL a i1 i2).map (fun s => "-" ++ s)
  | (Tag.insert, _, _, j1, j2) => (sliceL b j1 j2).map (fun s => "+" ++ s)

/-- The `@@ -… +… @@` hunk header plus body lines of one group. -/
def groupLines (a b : List String) (group : List Opcode) : List String :=
  match group.head?, group.getLast? with
  | some f, some l =>
    ("@@ -" ++ fmtRangeUnified f.2.1 l.2.2.1 ++ " +" ++
        fmtRangeUnified f.2.2.2.1 l.2.2.2.2 ++ " @@") ::
      group.foldr (fun oc acc => opcodeLines a b oc ++ acc) []
  | _, _ => []

/-- Embeds `list(difflib.unified_diff(a, b, lineterm=''))` with the default
empty file names and dates: the two `--- ` / `+++ ` header lines are
emitted before the first group. -/
def unifiedDiff (a b : List String) : List String :=
  let groups := groupedOpcodes 3 a b
  if groups.isEmpty then []
  else "--- " :: "+++ " :: groups.foldr (fun g acc => groupLines a b g ++ acc) []

end Book2Audible

namespace Book2Audible

/-! ### `AudioVerifier._normalize_text` / `_compare_texts`
(src/core/audio_verifier.py, lines 171-233) -/

/-- The `replacements` dictionary of `_normalize_text`, in insertion
(iteration) order. -/
def verifierReplacements : List (String × String) :=
  [("centre", "center"), ("colour", "color"), ("organise", "organize"),
   ("recognise", "recognize"), ("analyse", "analyze"),
   ("prioritise", "prioritize")]

/-- Embeds `AudioVerifier._normalize_text`: lowercase, strip punctuation
(`re.sub(r'[^\w\s]', '')`), collapse whitespace, normalize regional
spellings by plain substring replacement (each loop iteration runs
`text.replace(aus, us)` and then the no-op `text.replace(us, us)`),
then strip. -/
def normalize_text (s : String) : String :=
  let t := s.data.map pyLowerChar
  let t := t.filter (fun c => pyWordChar c || pySpace c)
  let t := collapseWs t
  let t := verifierReplacements.foldl
    (fun acc pr => pyReplace pr.2.data pr.2.data (pyReplace pr.1.data pr.2.data acc)) t
  ⟨pyStrip t⟩

/-- The result record of `_compare_texts` (`ComparisonResult`). -/
structure ComparisonResult where
  accuracy_score : ℚ
  word_error_rate : ℚ
  character_error_rate : ℚ
  missing_words : List String
  extra_words : List String
deriving DecidableEq

/-- Python `str.startswith(pre)`. -/
def startsWithChars (l pre : List Char) : Bool :=
  decide (l.take pre.length = pre)

/-- Embeds `AudioVerifier._compare_texts(original, transcribed)`: normalize both
texts, compute the character-level `SequenceMatcher` ratio, run
`difflib.unified_diff` over the whitespace-split words, and collect as
missing/extra the diff lines starting with `"- "` / `"+ "` (note the
space: unified-diff lines use the prefixes `"-"` / `"+"` without a
space, which is claim C1's subject). -/
def compare_texts (original transcribed : String) : ComparisonResult :=
  let orig_n := normalize_text original
  let trans_n := normalize_text transcribed
  let orig_words : List String := (pySplit orig_n.data).map (fun l => (⟨l⟩ : String))
  let trans_words : List String := (pySplit trans_n.data).map (fun l => (⟨l⟩ : String))
  let similarity := smRatio orig_n.data trans_n.data
  let word_diffs := unifiedDiff orig_words trans_words
  let missing := (word_diffs.filter
    (fun s => startsWithChars s.data ['-', ' '])).map (fun s => (⟨s.data.drop 2⟩ : String))
  let extra := (word_diffs.filter
    (fun s => startsWithChars s.data ['+', ' '])).map (fun s => (⟨s.data.drop 2⟩ : String))
  { accuracy_score := similarity
    word_error_rate := ((missing ++ extra).length : ℚ) / (max orig_words.length 1 : ℚ)
    character_error_rate := 1 - similarity
    missing_words := missing
    extra_words := extra }

end Book2Audible

namespace Book2Audible

/-- C1.  Evaluating `_compare_texts` on the failing input — original
`"hello world"` against an empty transcription — yields
`accuracy_score = 0.0` but `word_error_rate = 0.0` with empty
missing/extra word lists, not the `1.0` the specification requires: the
code scans `unified_diff` output for lines starting with `"- "` / `"+ "`
although unified-diff lines carry the one-character prefixes `"-"` /
`"+"`, so no diff line is ever counted. -/
theorem C1_word_error_rate_empty_transcript :
    compare_texts "hello world" "" =
      { accuracy_score := 0, word_error_rate := 0, character_error_rate := 1,
        missing_words := [], extra_words := [] } := by
  have hblocks : getMatchingBlocks "hello world".data "".data = [(11, 0, 0)] := by
    decide
  have hratio : smRatio "hello world".data "".data = 0 := by
    unfold smRatio
    rw [hblocks]
    norm_num
  have hnorm1 : normalize_text "hello world" = "hello world" := by decide
  have hnorm2 : normalize_text "" = "" := by decide
  have hsplit1 : (pySplit ("hello world" : String).data).map
      (fun l => (⟨l⟩ : String)) = ["hello", "world"] := by decide
  have hsplit2 : (pySplit ("" : String).data).map
      (fun l => (⟨l⟩ : String)) = ([] : List String) := by decide
  have hdiff : unifiedDiff ["hello", "world"] [] =
      ["--- ", "+++ ", "@@ -1,2 +0,0 @@", "-hello", "-world"] := by decide
  have hmiss : (["--- ", "+++ ", "@@ -1,2 +0,0 @@", "-hello", "-world"].filter
      (fun s => startsWithChars s.data ['-', ' '])) = [] := by decide
  have hext : (["--- ", "+++ ", "@@ -1,2 +0,0 @@", "-hello", "-world"].filter
      (fun s => startsWithChars s.data ['+', ' '])) = [] := by decide
  simp only [compare_texts, hnorm1, hnorm2, hsplit1, hsplit2, hdiff, hratio,
    hmiss, hext, List.map_nil, List.append_nil, List.length_nil]
  norm_num

end Book2Audible

namespace Book2Audible

/-! ### `AudioProcessor.stitch_audio_chunks` (src/core/audio_processor.py, lines 27-75)

Audio byte strings are `List Nat`; the pydub `AudioSegment` capability
(decoding, fades, concatenation, loudness normalization, WAV export) is
an abstract structure of operations over an arbitrary segment type `σ`,
so the theorems quantify over every possible pydub behaviour.  The
`normalizeFlag` field embeds `config.tts_settings.get("normalize_audio",
True)`. -/

/-- Audio bytes. -/
abbrev AudioBytes := List Nat

/-- The pydub operations `stitch_audio_chunks` consumes.  `fromWav` may
fail (a raised decoding exception, re-raised by the source's
`except … raise`). -/
structure PydubOps (σ : Type) where
  fromWav : AudioBytes → Except String σ
  fadeIn : σ → σ
  fadeOut : σ → σ
  emptySeg : σ
  append : σ → σ → σ
  normalize : σ → σ
  exportWav : σ → AudioBytes
  normalizeFlag : Bool

/-- The decoding/fading loop: chunk `i` of `n` is faded in when `i > 0`
and faded out when `i < n - 1`; a decoding error aborts the whole call
(`raise`). -/
def decodeSegments {σ : Type} (ops : PydubOps σ) (n : Nat) :
    Nat → List AudioBytes → Except String (List σ)
  | _, [] => .ok []
  | i, c :: cs =>
    match ops.fromWav c with
    | .error e => .error e
    | .ok seg =>
      let seg := if 0 < i then ops.fadeIn seg else seg
      let seg := if i < n - 1 then ops.fadeOut seg else seg
      match decodeSegments ops n (i + 1) cs with
      | .error e => .error e
      | .ok segs => .ok (seg :: segs)

/-- Embeds `AudioProcessor.stitch_audio_chunks(audio_chunks)`: an empty list
raises `ValueError("No audio chunks provided")`; a single chunk is
returned unchanged (before any decoding); otherwise the chunks are
decoded, faded, concatenated onto `AudioSegment.empty()`, optionally
normalized, and exported back to WAV bytes. -/
def stitch_audio_chunks {σ : Type} (ops : PydubOps σ)
    (audio_chunks : List AudioBytes) : Except String AudioBytes :=
  match audio_chunks with
  | [] => .error "No audio chunks provided"
  | [c] => .ok c
  | chunks =>
    match decodeSegments ops chunks.length 0 chunks with
    | .error e => .error e
    | .ok segs =>
      let combined := segs.foldl ops.append ops.emptySeg
      let combined := if ops.normalizeFlag then ops.normalize combined else combined
      .ok (ops.exportWav combined)

/-- C9.  For every pydub behaviour: stitching an empty list of audio
buffers raises `ValueError("No audio chunks provided")` rather than
returning a buffer, and stitching a single buffer returns exactly that
buffer's bytes, unchanged and undecoded. -/
theorem C9_stitch_edge_cases {σ : Type} (ops : PydubOps σ) (c : AudioBytes) :
    stitch_audio_chunks ops [] = .error "No audio chunks provided" ∧
      stitch_audio_chunks ops [c] = .ok c :=
  ⟨rfl, rfl⟩

end Book2Audible

namespace Book2Audible

/-! ### `ChunkDatabase` (src/core/chunk_database.py)

SQLite tables are embedded as lists of row records in insertion order
(`AUTOINCREMENT` ids come from monotone counters).  The `metadata` /
`orpheus_*` chunk columns and the size/duration/checksum columns — JSON
blobs and file-derived metadata that no claim reads — are omitted from
the row records; every other column is embedded.

Connection discipline: each `with sqlite3.connect(self.db_path) as conn:`
block is one deferred write transaction.  Python's sqlite3 module opens
an implicit transaction at the first DML statement, commits it when the
block exits normally and rolls it back when an exception escapes; while
such a transaction is open, a *second* connection to the same database
file cannot acquire the write lock and its DML raises
`sqlite3.OperationalError('database is locked')`.  `DBFile.writerOpen`
records whether some other connection currently holds an open write
transaction. -/

deriving instance DecidableEq for Except

/-- Errors surfaced by the embedded operations. -/
inductive SqlError where
  /-- Embeds `sqlite3.IntegrityError` (UNIQUE-constraint violation). -/
  | integrityError : String → SqlError
  /-- Embeds `sqlite3.OperationalError('database is locked')`. -/
  | operationalLocked : SqlError
  /-- A Python `ValueError` raised by the calling code. -/
  | valueError : String → SqlError
  /-- An exception propagating from the external audio layer. -/
  | externalError : String → SqlError
deriving DecidableEq

/-- A row of the `chunks` table. -/
structure ChunkRow where
  id : Nat
  chapter_id : Nat
  chunk_number : Nat
  position_start : Nat
  position_end : Nat
  original_text : String
  cleaned_text : String
  text_file_path : String
  audio_file_path : Option String
  transcription_file_path : Option String
  diff_file_path : Option String
  status : String
  verification_score : Option ℚ
  processing_time : Option ℚ
  error_message : Option String
  created_at : String
  updated_at : String
deriving DecidableEq

/-- A row of the `chapters` table. -/
structure ChapterRow where
  id : Nat
  project_id : Nat
  chapter_number : Nat
  title : String
  original_text : String
  cleaned_text : String
  chunks_directory : String
  total_chunks : Nat
  completed_chunks : Nat
  status : String
  created_at : String
  updated_at : String
deriving DecidableEq

/-- A row of the `audio_versions` table. -/
structure AudioVersionRow where
  id : Nat
  chunk_id : Nat
  version_number : Nat
  audio_file_path : String
  orpheus_params : String
  created_at : String
  is_active : Bool
deriving DecidableEq

/-- A row of the `chapter_audio_versions` table (`stitched_from_chunks`
and `excluded_chunks` are stored as JSON lists of chunk ids; they are
embedded directly as lists). -/
structure ChapterAudioVersionRow where
  id : Nat
  chapter_id : Nat
  version_number : Nat
  audio_file_path : String
  created_at : String
  is_active : Bool
  stitched_from_chunks : List Nat
  excluded_chunks : List Nat
  processing_log : String
deriving DecidableEq

/-- The committed database contents. -/
structure DB where
  chapters : List ChapterRow
  chunks : List ChunkRow
  audio_versions : List AudioVersionRow
  chapter_audio_versions : List ChapterAudioVersionRow
  nextChunkId : Nat
  nextAvId : Nat
  nextCavId : Nat
deriving DecidableEq

/-- The database file: committed contents plus whether some other
connection currently holds an open write transaction. -/
structure DBFile where
  committed : DB
  writerOpen : Bool
deriving DecidableEq

/-- Embeds `with sqlite3.connect(self.db_path) as conn: <body>` for a body that
writes: acquiring the write lock fails with `OperationalError` while
another connection's write transaction is open; otherwise the body runs
against the committed state and is committed on success or rolled back
when an exception escapes the block. -/
def withConnWrite {β : Type} (file : DBFile)
    (body : DB → Except SqlError (DB × β)) : DBFile × Except SqlError β :=
  if file.writerOpen then (file, .error .operationalLocked)
  else
    match body file.committed with
    | .ok (db, b) => ({ file with committed := db }, .ok b)
    | .error e => (file, .error e)

/-- Embeds `SELECT * FROM audio_versions WHERE chunk_id = ?`. -/
def versionsFor (db : DB) (chunk_id : Nat) : List AudioVersionRow :=
  db.audio_versions.filter (fun r => decide (r.chunk_id = chunk_id))

/-- Embeds `SELECT * FROM chapter_audio_versions WHERE chapter_id = ?`. -/
def cavFor (db : DB) (chapter_id : Nat) : List ChapterAudioVersionRow :=
  db.chapter_audio_versions.filter (fun r => decide (r.chapter_id = chapter_id))

/-- The INSERT statement of `ChunkDatabase.create_chunk` (the UNIQUE
`(chapter_id, chunk_number)` constraint is checked first); the new chunk
starts as `pending` with all result columns NULL. -/
def create_chunk_stmt (db : DB) (chapter_id chunk_number position_start
    position_end : Nat) (original_text cleaned_text text_file_path : String)
    (now : String) : Except SqlError (DB × Nat) :=
  if db.chunks.any (fun r =>
      decide (r.chapter_id = chapter_id) && decide (r.chunk_number = chunk_number)) then
    .error (.integrityError
      "UNIQUE constraint failed: chunks.chapter_id, chunks.chunk_number")
  else
    let row : ChunkRow :=
      { id := db.nextChunkId, chapter_id := chapter_id,
        chunk_number := chunk_number, position_start := position_start,
        position_end := position_end, original_text := original_text,
        cleaned_text := cleaned_text, text_file_path := text_file_path,
        audio_file_path := none, transcription_file_path := none,
        diff_file_path := none, status := "pending",
        verification_score := none, processing_time := none,
        error_message := none, created_at := now, updated_at := now }
    .ok ({ db with chunks := db.chunks ++ [row],
                   nextChunkId := db.nextChunkId + 1 }, row.id)

/-- Embeds `ChunkDatabase.create_chunk`: runs its INSERT on a connection of its
own. -/
def create_chunk (file : DBFile) (chapter_id chunk_number position_start
    position_end : Nat) (original_text cleaned_text text_file_path : String)
    (now : String) : DBFile × Except SqlError Nat :=
  withConnWrite file (fun db =>
    create_chunk_stmt db chapter_id chunk_number position_start position_end
      original_text cleaned_text text_file_path now)

/-- Embeds `ChunkDatabase.update_chunk_status`: one UPDATE statement with a
fixed SET list — `status`, all six result columns and `updated_at` are
always written, each optional Python parameter defaulting to `None`
(NULL). -/
def update_chunk_status (file : DBFile) (chunk_id : Nat) (status : String)
    (audio_file_path transcription_file_path diff_file_path : Option String)
    (verification_score processing_time : Option ℚ)
    (error_message : Option String) (now : String) :
    DBFile × Except SqlError Unit :=
  withConnWrite file (fun db =>
    .ok ({ db with chunks := db.chunks.map (fun r =>
      if r.id = chunk_id then
        { r with status := status, audio_file_path := audio_file_path,
                 transcription_file_path := transcription_file_path,
                 diff_file_path := diff_file_path,
                 verification_score := verification_score,
                 processing_time := processing_time,
                 error_message := error_message, updated_at := now }
      else r) }, ()))

/-- The shift UPDATE of `insert_chunk_at_position`:
`UPDATE chunks SET chunk_number = chunk_number + 1 WHERE chapter_id = ?
AND chunk_number >= ?`. -/
def shiftChunks (db : DB) (chapter_id position : Nat) : DB :=
  { db with chunks := db.chunks.map (fun r =>
      if r.chapter_id = chapter_id ∧ position ≤ r.chunk_number then
        { r with chunk_number := r.chunk_number + 1 }
      else r) }

/-- Embeds `ChunkDatabase.insert_chunk_at_position`: inside its own connection's
`with` block it first runs the shift UPDATE — opening this connection's
write transaction — and then calls `self.create_chunk(...)`, which opens
a *second* connection to the same database file.  That second
connection's INSERT cannot acquire the write lock while the shift
transaction is open, so it raises `OperationalError('database is
locked')`; the exception escapes the outer `with` block, which rolls the
shift back.  (The `.ok` branch below is unreachable: the inner
connection always fails while `writerOpen` is set.) -/
def insert_chunk_at_position (file : DBFile) (chapter_id position : Nat)
    (new_text : String) (now : String) : DBFile × Except SqlError Nat :=
  withConnWrite file (fun db =>
    let shifted := shiftChunks db chapter_id position
    let inner := create_chunk { committed := db, writerOpen := true }
      chapter_id position 0 new_text.length new_text new_text "" now
    match inner.2 with
    | .error e => .error e
    | .ok chunk_id => .ok (shifted, chunk_id))

/-- Embeds `ChunkDatabase.create_audio_version`: inside one connection (one
transaction), read `MAX(version_number)` for the chunk (`NULL → 0`),
insert the new version with `is_active = TRUE`, then deactivate every
other version of the same chunk. -/
def create_audio_version (file : DBFile) (chunk_id : Nat)
    (audio_file_path orpheus_params : String) (now : String) :
    DBFile × Except SqlError Nat :=
  withConnWrite file (fun db =>
    let maxVersion := (versionsFor db chunk_id).foldl
      (fun m r => max m r.version_number) 0
    let version_number := maxVersion + 1
    let row : AudioVersionRow :=
      { id := db.nextAvId, chunk_id := chunk_id,
        version_number := version_number, audio_file_path := audio_file_path,
        orpheus_params := orpheus_params, created_at := now, is_active := true }
    let db1 := { db with audio_versions := db.audio_versions ++ [row],
                         nextAvId := db.nextAvId + 1 }
    let db2 := { db1 with audio_versions := db1.audio_versions.map (fun r =>
      if r.chunk_id = chunk_id ∧ r.id ≠ row.id then { r with is_active := false }
      else r) }
    .ok (db2, row.id))

/-- Embeds `ChunkDatabase.create_chapter_audio_version`: inside one connection,
deactivate all versions of the chapter, compute
`COALESCE(MAX(version_number), 0) + 1`, and insert the new active
version recording the included/excluded chunk-id lists and the log. -/
def create_chapter_audio_version (file : DBFile) (chapter_id : Nat)
    (audio_file_path : String) (stitched_from_chunks excluded_chunks : List Nat)
    (processing_log : String) (now : String) : DBFile × Except SqlError Nat :=
  withConnWrite file (fun db =>
    let db1 := { db with chapter_audio_versions :=
      db.chapter_audio_versions.map (fun r =>
        if r.chapter_id = chapter_id then { r with is_active := false } else r) }
    let version_number := (cavFor db1 chapter_id).foldl
      (fun m r => max m r.version_number) 0 + 1
    let row : ChapterAudioVersionRow :=
      { id := db.nextCavId, chapter_id := chapter_id,
        version_number := version_number, audio_file_path := audio_file_path,
        created_at := now, is_active := true,
        stitched_from_chunks := stitched_from_chunks,
        excluded_chunks := excluded_chunks, processing_log := processing_log }
    let db2 := { db1 with
      chapter_audio_versions := db1.chapter_audio_versions ++ [row],
      nextCavId := db.nextCavId + 1 }
    .ok (db2, row.id))

/-- Embeds `SELECT * FROM chapters WHERE id = ?`. -/
def get_chapter (db : DB) (chapter_id : Nat) : Option ChapterRow :=
  db.chapters.find? (fun r => decide (r.id = chapter_id))

/-- Insertion step of the `ORDER BY chunk_number` sort (stable:
equal keys keep table order). -/
def insChunkSorted (x : ChunkRow) : List ChunkRow → List ChunkRow
  | [] => [x]
  | y :: ys =>
    if y.chunk_number ≤ x.chunk_number then y :: insChunkSorted x ys
    else x :: y :: ys

/-- Embeds `SELECT * FROM chunks WHERE chapter_id = ? ORDER BY chunk_number`
(`ChunkDatabase.get_chunks_by_chapter`). -/
def get_chunks_by_chapter (db : DB) (chapter_id : Nat) : List ChunkRow :=
  (db.chunks.filter (fun r => decide (r.chapter_id = chapter_id))).foldl
    (fun acc r => insChunkSorted r acc) []

end Book2Audible

namespace Book2Audible

/-! ### `ChunkManager.restitch_chapter_audio` (src/core/chunk_manager.py, lines 232-304) -/

/-- The filesystem: a map from paths to file bytes (`find?` takes the
most recent write). -/
structure FS where
  files : List (String × AudioBytes)
deriving DecidableEq

/-- Embeds `Path(p).exists()` + `open(p, 'rb').read()`. -/
def fsRead (fs : FS) (path : String) : Option AudioBytes :=
  (fs.files.find? (fun pr => decide (pr.1 = path))).map (fun pr => pr.2)

/-- Embeds `AudioProcessor.save_wav_file` as seen by later reads (the
RIFF-header check only rewraps raw PCM bytes; no claim inspects the
written bytes, so the written payload is recorded as-is). -/
def fsWrite (fs : FS) (path : String) (data : AudioBytes) : FS :=
  ⟨(path, data) :: fs.files⟩

/-- Python truthiness of an optional string column: `None` and `""` are
falsy (`not chunk.audio_file_path`). -/
def pyFalsyStr (o : Option String) : Bool :=
  match o with
  | none => true
  | some s => decide (s = "")

/-- The collection loop of `restitch_chapter_audio`: skip excluded
chunks, skip chunks that are not `completed` or have no audio path,
skip chunks whose audio file does not exist; collect the audio bytes
and the chunk *number* (the source's `included_chunks` log list) of the
rest, in chunk order. -/
def collectChunks (fs : FS) (exclude : List Nat) :
    List ChunkRow → List AudioBytes × List Nat
  | [] => ([], [])
  | c :: rest =>
    if c.id ∈ exclude then collectChunks fs exclude rest
    else if decide (c.status ≠ "completed") || pyFalsyStr c.audio_file_path then
      collectChunks fs exclude rest
    else
      match c.audio_file_path with
      | none => collectChunks fs exclude rest
      | some p =>
        match fsRead fs p with
        | none => collectChunks fs exclude rest
        | some bytes =>
          let tail := collectChunks fs exclude rest
          (bytes :: tail.1, c.chunk_number :: tail.2)

/-- Python `f"{n:02d}"`. -/
def pad2 (n : Nat) : String :=
  if n < 10 then "0" ++ toString n else toString n

/-- Embeds `ChunkManager.restitch_chapter_audio(chapter_id, exclude_chunk_ids)`.
Raises `ValueError` when the chapter or its chunks are missing, or when
no usable audio chunk remains; a single included chunk bypasses
stitching; the stitched file is saved under a timestamped name and a new
Chapter Audio Version is registered whose `stitched_from_chunks` is the
list of ALL non-excluded chunk ids of the chapter (the actually-included
chunk numbers are only logged). -/
def restitch_chapter_audio {σ : Type} (ops : PydubOps σ) (file : DBFile)
    (fs : FS) (chapter_id : Nat) (exclude_opt : Option (List Nat))
    (timestamp now : String) : (DBFile × FS) × Except SqlError String :=
  match get_chapter file.committed chapter_id with
  | none => ((file, fs), .error (.valueError
      ("Chapter " ++ toString chapter_id ++ " or chunks not found")))
  | some chapter =>
    let chunks := get_chunks_by_chapter file.committed chapter_id
    if chunks.isEmpty then
      ((file, fs), .error (.valueError
        ("Chapter " ++ toString chapter_id ++ " or chunks not found")))
    else
      let exclude := exclude_opt.getD []
      let collected := collectChunks fs exclude chunks
      let audio_chunks := collected.1
      if audio_chunks.isEmpty then
        ((file, fs), .error (.valueError "No valid audio chunks found for stitching"))
      else
        let finalAudio : Except SqlError AudioBytes :=
          match audio_chunks with
          | [a] => .ok a
          | l =>
            match stitch_audio_chunks ops l with
            | .ok a => .ok a
            | .error e => .error (.externalError e)
        match finalAudio with
        | .error e => ((file, fs), .error e)
        | .ok final_audio =>
          let output_path := chapter.chunks_directory ++ "/Chapter_" ++
            pad2 chapter.chapter_number ++ "_RESTITCHED_" ++ timestamp ++ ".wav"
          let fs' := fsWrite fs output_path final_audio
          let chunk_ids := (chunks.filter (fun c => decide (c.id ∉ exclude))).map
            (fun c => c.id)
          let processing_log := "Restitched from " ++
            toString audio_chunks.length ++ " chunks. Excluded: " ++
            toString exclude.length ++ " chunks."
          let reg := create_chapter_audio_version file chapter_id output_path
            chunk_ids exclude processing_log now
          match reg.2 with
          | .error e => ((reg.1, fs'), .error e)
          | .ok _ => ((reg.1, fs'), .ok output_path)

end Book2Audible

namespace Book2Audible

/-! ### `Book2AudioProcessor._process_single_chapter`
(src/core/processor.py, lines 158-487)

The chapter-orchestration loop, with its external effects as oracles:
`preexist n` is the audio of a chunk whose `.wav` file already exists in
the output directory (the resume path), `synth n` the TTS call for chunk
number `n` (an `.error` is any raised synthesis/timeout exception),
`verify n` the chunk-verification call (an `.error` is a raised
verification/timeout exception, converted by the source into a failed
`VerificationResult`), `regen n` the one-shot regeneration attempt for a
failed slot and `regenOk n` its file-verification outcome.  File writes,
logging and the coverage report do not feed back into control flow and
are not modelled. -/

/-- The verification fields of a chunk result that the claims read. -/
structure VerifInfo where
  is_verified : Bool
  error_message : Option String
deriving DecidableEq

/-- One entry of `chunk_results`. -/
structure ChunkResult where
  chunk_number : Nat
  error : Option String
  verification : VerifInfo
deriving DecidableEq

/-- The per-chunk try/except body: a synthesis exception is caught and
recorded (`error` + failed verification) and the loop continues; on
success, a verification exception is caught and recorded as a failed
verification while the audio is kept; with verification disabled a
synthetic passed result is recorded. -/
def chunkStep {α : Type} (enabled : Bool) (preexist : Nat → Option α)
    (synth : Nat → Except String α) (verify : Nat → Except String VerifInfo)
    (n : Nat) : ChunkResult × Option α :=
  match preexist n with
  | some a =>
    ({ chunk_number := n, error := none,
       verification := ⟨true, some "Pre-existing file"⟩ }, some a)
  | none =>
    match synth n with
    | .error e =>
      ({ chunk_number := n, error := some e,
         verification := ⟨false, some e⟩ }, none)
    | .ok a =>
      let v : VerifInfo :=
        if enabled then
          match verify n with
          | .ok vi => vi
          | .error e => ⟨false, some e⟩
        else ⟨true, some "Verification disabled"⟩
      ({ chunk_number := n, error := none, verification := v }, some a)

/-- The main `for i, chunk_text in enumerate(chunks)` loop: every chunk
gets a result entry and an audio slot; no exception aborts the loop. -/
def chapterLoop {α : Type} (enabled : Bool) (preexist : Nat → Option α)
    (synth : Nat → Except String α) (verify : Nat → Except String VerifInfo) :
    Nat → List String → List ChunkResult × List (Option α)
  | _, [] => ([], [])
  | i, _ :: rest =>
    let st := chunkStep enabled preexist synth verify (i + 1)
    let tail := chapterLoop enabled preexist synth verify (i + 1) rest
    (st.1 :: tail.1, st.2 :: tail.2)

/-- The reconcile loop (`for i in range(len(chunks))`): present audio is
appended to `successful`; an empty slot is recorded in
`failed_chunk_nums` and, while at most 3 slots have failed so far, a
one-shot regeneration is attempted whose result is popped again if its
file verification does not pass. -/
def reconcile {α : Type} (regen : Nat → Except String α) (regenOk : Nat → Bool) :
    Nat → List (Option α) → List α → List Nat → List α × List Nat
  | _, [], succ, failed => (succ, failed)
  | i, slot :: rest, succ, failed =>
    match slot with
    | some a => reconcile regen regenOk (i + 1) rest (succ ++ [a]) failed
    | none =>
      let n := i + 1
      let failed1 := failed ++ [n]
      if failed1.length ≤ 3 then
        match regen n with
        | .ok a =>
          let succ1 := succ ++ [a]
          let failed2 := failed1.erase n
          if regenOk n then reconcile regen regenOk (i + 1) rest succ1 failed2
          else reconcile regen regenOk (i + 1) rest succ1.dropLast (failed2 ++ [n])
        | .error _ => reconcile regen regenOk (i + 1) rest succ failed1
      else reconcile regen regenOk (i + 1) rest succ failed1

/-- The `successful_chunks` list after the reconcile pass. -/
def successfulChunks {α : Type} (enabled : Bool) (preexist : Nat → Option α)
    (synth : Nat → Except String α) (verify : Nat → Except String VerifInfo)
    (regen : Nat → Except String α) (regenOk : Nat → Bool)
    (chunks : List String) : List α :=
  (reconcile regen regenOk 0
    (chapterLoop enabled preexist synth verify 0 chunks).2 [] []).1

/-- Embeds `_process_single_chapter`, reduced to its control flow: run the
chunk loop, reconcile with regeneration, and raise
`Exception("All chunks failed to process")` if and only if no chunk
produced usable audio; otherwise return the successful audio list, the
per-chunk results and the permanently failed chunk numbers. -/
def process_single_chapter {α : Type} (enabled : Bool)
    (preexist : Nat → Option α) (synth : Nat → Except String α)
    (verify : Nat → Except String VerifInfo) (regen : Nat → Except String α)
    (regenOk : Nat → Bool) (chunks : List String) :
    Except String (List α × List ChunkResult × List Nat) :=
  let loopOut := chapterLoop enabled preexist synth verify 0 chunks
  let recOut := reconcile regen regenOk 0 loopOut.2 [] []
  if recOut.1.isEmpty then .error "All chunks failed to process"
  else .ok (recOut.1, loopOut.1, recOut.2)

end Book2Audible

namespace Book2Audible

/-! ### Concrete fixtures used by counterexamples and witnesses -/

/-- A chapter with two chunks. -/
def exChapter : ChapterRow :=
  { id := 1, project_id := 1, chapter_number := 3, title := "Ch",
    original_text := "a b", cleaned_text := "a b.", chunks_directory := "out",
    total_chunks := 2, completed_chunks := 1, status := "processing",
    created_at := "t0", updated_at := "t0" }

/-- Chunk 1: completed, with an existing audio file. -/
def exChunk1 : ChunkRow :=
  { id := 1, chapter_id := 1, chunk_number := 1, position_start := 0,
    position_end := 1, original_text := "a", cleaned_text := "a.",
    text_file_path := "out/c1.txt", audio_file_path := some "out/c1.wav",
    transcription_file_path := some "out/c1_tr.txt",
    diff_file_path := some "out/c1_diff.html", status := "completed",
    verification_score := some (9/10), processing_time := some 2,
    error_message := none, created_at := "t0", updated_at := "t1" }

/-- Chunk 2: still pending, no audio. -/
def exChunk2 : ChunkRow :=
  { id := 2, chapter_id := 1, chunk_number := 2, position_start := 2,
    position_end := 3, original_text := "b", cleaned_text := "b.",
    text_file_path := "out/c2.txt", audio_file_path := none,
    transcription_file_path := none, diff_file_path := none,
    status := "pending", verification_score := none, processing_time := none,
    error_message := none, created_at := "t0", updated_at := "t0" }

/-- The concrete database file. -/
def exDB : DB :=
  { chapters := [exChapter], chunks := [exChunk1, exChunk2],
    audio_versions := [], chapter_audio_versions := [],
    nextChunkId := 3, nextAvId := 1, nextCavId := 1 }

/-- The concrete database file with no other writer. -/
def exFile : DBFile := { committed := exDB, writerOpen := false }

/-- A filesystem holding chunk 1's audio. -/
def exFS : FS := ⟨[("out/c1.wav", [0, 1, 2])]⟩

/-- Trivial pydub behaviour for witnesses (any instantiation works). -/
def unitOps : PydubOps Unit :=
  { fromWav := fun _ => .ok (), fadeIn := id, fadeOut := id, emptySeg := (),
    append := fun _ _ => (), normalize := id, exportWav := fun _ => [],
    normalizeFlag := true }

/-! ### Claim C2: `insert_chunk_at_position` -/

/-- C2.  `insert_chunk_at_position` can never succeed: whatever the
database contents, the chapter, the position and the text, the call
returns `OperationalError('database is locked')` and leaves the database
file exactly as it was (the chunk-number shift is rolled back), because
`create_chunk` opens a second connection whose INSERT cannot acquire the
write lock while the outer connection's shift transaction is open.  In
particular the chapter never ends up with chunk numbers `1..n+1` and the
new text is never inserted. -/
theorem C2_insert_chunk_always_locks (file : DBFile) (chapter_id position : Nat)
    (new_text now : String) :
    insert_chunk_at_position file chapter_id position new_text now =
      (file, .error .operationalLocked) := by
  unfold insert_chunk_at_position create_chunk withConnWrite
  by_cases h : file.writerOpen <;> simp [h]

/-! ### Claim C10: `update_chunk_status` -/

/-- C10.  `update_chunk_status` is a full overwrite of the result
columns: called with only a chunk id and a status (every optional Python
argument at its `None` default), it succeeds, rewrites the matching row
with `audio_file_path`, `transcription_file_path`, `diff_file_path`,
`verification_score`, `processing_time` and `error_message` all NULL —
clearing any previously stored values — stamps `updated_at`, sets the
status, and leaves every other row untouched. -/
theorem C10_update_chunk_status_overwrite (file : DBFile) (chunk_id : Nat)
    (status now : String) (h : file.writerOpen = false) :
    (update_chunk_status file chunk_id status none none none none none none
      now).2 = .ok () ∧
    (update_chunk_status file chunk_id status none none none none none none
      now).1.committed.chunks =
      file.committed.chunks.map (fun r =>
        if r.id = chunk_id then
          { r with status := status, audio_file_path := none,
                   transcription_file_path := none, diff_file_path := none,
                   verification_score := none, processing_time := none,
                   error_message := none, updated_at := now }
        else r) ∧
    (∀ r ∈ (update_chunk_status file chunk_id status none none none none none
        none now).1.committed.chunks, r.id = chunk_id →
      r.status = status ∧ r.audio_file_path = none ∧
        r.transcription_file_path = none ∧ r.diff_file_path = none ∧
        r.verification_score = none ∧ r.processing_time = none ∧
        r.error_message = none ∧ r.updated_at = now) ∧
    (∀ r ∈ file.committed.chunks, r.id ≠ chunk_id →
      r ∈ (update_chunk_status file chunk_id status none none none none none
        none now).1.committed.chunks) := by
  refine ⟨?_, ?_, ?_, ?_⟩
  · unfold update_chunk_status withConnWrite
    simp [h]
  · unfold update_chunk_status withConnWrite
    simp [h]
  · intro r hr hid
    unfold update_chunk_status withConnWrite at hr
    simp only [h, Bool.false_eq_true, if_false] at hr
    obtain ⟨r0, hr0, rfl⟩ := List.mem_map.mp hr
    by_cases h0 : r0.id = chunk_id
    · simp [h0]
    · simp only [h0, if_false] at hid
  · intro r hr hne
    unfold update_chunk_status withConnWrite
    simp only [h, Bool.false_eq_true, if_false]
    exact List.mem_map.mpr ⟨r, hr, by simp [hne]⟩

/-- C10 witness: the theorem applied to the concrete database, clearing
chunk 1's previously stored result fields. -/
theorem C10_update_chunk_status_witness :
    exFile.writerOpen = false ∧
    (update_chunk_status exFile 1 "failed" none none none none none none
      "t9").1.committed.chunks =
      exFile.committed.chunks.map (fun r =>
        if r.id = 1 then
          { r with status := "failed", audio_file_path := none,
                   transcription_file_path := none, diff_file_path := none,
                   verification_score := none, processing_time := none,
                   error_message := none, updated_at := "t9" }
        else r) :=
  ⟨rfl, (C10_update_chunk_status_overwrite exFile 1 "failed" "t9" rfl).2.1⟩

end Book2Audible

namespace Book2Audible

/-! ### Claim C4: `create_audio_version` monotonicity -/

/-- Embeds `foldl max 0` over `[1, …, n]` is `n` (the SELECT MAX of a dense
version range). -/
theorem foldl_max_range' (n : Nat) :
    (List.range' 1 n).foldl (fun a b => max a b) 0 = n := by
  induction n with
  | zero => rfl
  | succ m ih =>
    have hconcat : List.range' 1 (m + 1) = List.range' 1 m ++ [1 + m] := by
      rw [List.range'_concat 1 m]
      norm_num
    rw [hconcat, List.foldl_append, ih]
    simp only [List.foldl_cons, List.foldl_nil]
    omega

/-- Invariant of the `audio_versions` rows of one chunk: version numbers
are exactly `1..n` in creation order, all ids are below the id counter,
and the active rows are exactly the most recently created one. -/
def AvInv (c : Nat) (db : DB) (n : Nat) : Prop :=
  (versionsFor db c).map (fun r => r.version_number) = List.range' 1 n ∧
  (∀ r ∈ versionsFor db c, r.id < db.nextAvId) ∧
  (versionsFor db c).filter (fun r => r.is_active) =
    (versionsFor db c).getLast?.toList

/-- One `create_audio_version` call preserves the invariant, bumping `n`. -/
theorem create_audio_version_inv (c : Nat) (file : DBFile) (n : Nat)
    (hw : file.writerOpen = false) (h : AvInv c file.committed n)
    (path params now : String) :
    (create_audio_version file c path params now).1.writerOpen = false ∧
    AvInv c (create_audio_version file c path params now).1.committed (n + 1) := by
  obtain ⟨hvn, hid, hact⟩ := h
  set db := file.committed with hdb
  set row : AudioVersionRow :=
    { id := db.nextAvId, chunk_id := c,
      version_number := (versionsFor db c).foldl (fun m r => max m r.version_number) 0 + 1,
      audio_file_path := path, orpheus_params := params, created_at := now,
      is_active := true } with hrow
  set deactF : AudioVersionRow → AudioVersionRow := fun r =>
    if r.chunk_id = c ∧ r.id ≠ row.id then { r with is_active := false } else r
    with hdeactF
  have hres : create_audio_version file c path params now =
      ({ committed :=
          { db with audio_versions := (db.audio_versions ++ [row]).map deactF,
                    nextAvId := db.nextAvId + 1 },
         writerOpen := false }, .ok row.id) := by
    unfold create_audio_version withConnWrite
    rw [hw]
    simp only [Bool.false_eq_true, if_false]
  have hmax : (versionsFor db c).foldl (fun m r => max m r.version_number) 0 = n := by
    have h1 : (versionsFor db c).foldl (fun m r => max m r.version_number) 0 =
        ((versionsFor db c).map (fun r => r.version_number)).foldl
          (fun a b => max a b) 0 :=
      (List.foldl_map (fun r : AudioVersionRow => r.version_number)
        (fun a b => max a b) (versionsFor db c) 0).symm
    rw [h1, hvn, foldl_max_range']
  -- the rows of chunk c after the call
  have hv2 : versionsFor
      { db with audio_versions := (db.audio_versions ++ [row]).map deactF,
                nextAvId := db.nextAvId + 1 } c =
      (versionsFor db c).map deactF ++ [row] := by
    have hpres : ∀ r : AudioVersionRow, (deactF r).chunk_id = r.chunk_id := by
      intro r
      rw [hdeactF]
      by_cases hc : r.chunk_id = c ∧ r.id ≠ row.id <;> simp [hc]
    unfold versionsFor
    simp only
    rw [List.filter_map deactF (db.audio_versions ++ [row])]
    have hcong : (db.audio_versions ++ [row]).filter
        ((fun r : AudioVersionRow => decide (r.chunk_id = c)) ∘ deactF) =
        (db.audio_versions ++ [row]).filter
          (fun r : AudioVersionRow => decide (r.chunk_id = c)) := by
      refine List.filter_congr ?_
      intro r _
      simp only [Function.comp_apply, hpres r]
    rw [hcong, List.filter_append]
    have hrowf : ([row].filter (fun r : AudioVersionRow => decide (r.chunk_id = c))) =
        [row] := by
      simp [hrow]
    rw [hrowf, List.map_append]
    have hfr : deactF row = row := by
      rw [hdeactF]
      simp
    simp only [List.map_cons, List.map_nil, hfr]
  -- old rows are deactivated in place, keeping id and version number
  have holdmap : ∀ r ∈ versionsFor db c, deactF r = { r with is_active := false } := by
    intro r hr
    have hc : r.chunk_id = c := by
      have := List.of_mem_filter hr
      exact of_decide_eq_true this
    have hlt : r.id < db.nextAvId := hid r hr
    rw [hdeactF]
    have hrid : row.id = db.nextAvId := rfl
    have : r.chunk_id = c ∧ r.id ≠ row.id := ⟨hc, by rw [hrid]; omega⟩
    simp [this]
  rw [hres]
  refine ⟨rfl, ?_, ?_, ?_⟩
  · -- version numbers are 1..n+1
    rw [hv2, List.map_append, List.map_map]
    have h1 : (versionsFor db c).map
        ((fun r : AudioVersionRow => r.version_number) ∘ deactF) =
        (versionsFor db c).map (fun r => r.version_number) := by
      refine List.map_congr_left ?_
      intro r hr
      simp only [Function.comp_apply, holdmap r hr]
    have h3 : row.version_number = n + 1 := by
      have heq : row.version_number =
          (versionsFor db c).foldl (fun m r => max m r.version_number) 0 + 1 := rfl
      rw [heq, hmax]
    rw [h1, hvn]
    have hconcat : List.range' 1 (n + 1) = List.range' 1 n ++ [1 + n] := by
      rw [List.range'_concat 1 n]; norm_num
    rw [hconcat]
    simp only [List.map_cons, List.map_nil, h3, List.append_cancel_left_eq,
      List.cons.injEq, and_true]
    omega
  · -- ids stay below the counter
    intro r hr
    rw [hv2] at hr
    rcases List.mem_append.mp hr with hmem | hmem
    · obtain ⟨r0, hr0, rfl⟩ := List.mem_map.mp hmem
      rw [holdmap r0 hr0]
      have := hid r0 hr0
      show r0.id < db.nextAvId + 1
      omega
    · rw [List.mem_singleton.mp hmem, hrow]
      simp
  · -- the active rows are exactly the new one
    rw [hv2, List.filter_append, List.getLast?_concat]
    have hleft : ((versionsFor db c).map deactF).filter
        (fun r : AudioVersionRow => r.is_active) = [] := by
      refine List.filter_eq_nil_iff.mpr ?_
      intro r hr
      obtain ⟨r0, hr0, rfl⟩ := List.mem_map.mp hr
      rw [holdmap r0 hr0]
      simp
    rw [hleft]
    have hrowact : ([row].filter (fun r : AudioVersionRow => r.is_active)) = [row] := by
      simp [hrow]
    rw [hrowact]
    rfl

end Book2Audible

namespace Book2Audible

/-- A sequence of `create_audio_version` calls for one chunk, each call
carrying `(audio_file_path, orpheus_params, now)`. -/
def runCreates (c : Nat) (file : DBFile)
    (calls : List (String × String × String)) : DBFile :=
  calls.foldl
    (fun f call => (create_audio_version f c call.1 call.2.1 call.2.2).1) file

theorem runCreates_inv (c : Nat) :
    ∀ (calls : List (String × String × String)) (file : DBFile) (n : Nat),
      file.writerOpen = false → AvInv c file.committed n →
      (runCreates c file calls).writerOpen = false ∧
        AvInv c (runCreates c file calls).committed (n + calls.length) := by
  intro calls
  induction calls with
  | nil =>
    intro file n hw h
    exact ⟨hw, by simpa using h⟩
  | cons hd tl ih =>
    intro file n hw h
    have step := create_audio_version_inv c file n hw h hd.1 hd.2.1 hd.2.2
    have rest := ih ((create_audio_version file c hd.1 hd.2.1 hd.2.2).1)
      (n + 1) step.1 step.2
    have harr : n + 1 + tl.length = n + (hd :: tl).length := by
      simp [List.length_cons]
      omega
    rw [harr] at rest
    exact rest

theorem range'_one_getLast (n : Nat) (h : 0 < n) :
    (List.range' 1 n).getLast? = some n := by
  match n, h with
  | m + 1, _ =>
    have hconcat : List.range' 1 (m + 1) = List.range' 1 m ++ [1 + m] := by
      rw [List.range'_concat 1 m]
      norm_num
    rw [hconcat, List.getLast?_concat]
    congr 1
    omega

/-- C4.  Starting from a database holding no versions for chunk `c`, any
sequence of `N` `create_audio_version` calls for `c` leaves that chunk's
stored version numbers exactly `1..N` in creation order, and — as soon as
`N ≥ 1` — exactly one version active, namely the most recently created
one (version number `N`): each creation deactivates all prior versions
inside its single transaction. -/
theorem C4_audio_version_monotonic (c : Nat) (file0 : DBFile)
    (calls : List (String × String × String))
    (h0 : file0.writerOpen = false)
    (hnone : versionsFor file0.committed c = []) :
    ((versionsFor (runCreates c file0 calls).committed c).map
        (fun r => r.version_number) = List.range' 1 calls.length) ∧
    (calls ≠ [] → ∃ r, (versionsFor (runCreates c file0 calls).committed c).filter
        (fun r => r.is_active) = [r] ∧ r.version_number = calls.length) := by
  have hInv0 : AvInv c file0.committed 0 := by
    refine ⟨by rw [hnone]; rfl, ?_, by rw [hnone]; rfl⟩
    intro r hr
    rw [hnone] at hr
    cases hr
  have hInv := (runCreates_inv c calls file0 0 h0 hInv0).2
  obtain ⟨hvn, _, hact⟩ := hInv
  rw [Nat.zero_add calls.length] at hvn
  refine ⟨hvn, ?_⟩
  intro hne
  have hpos : 0 < calls.length := List.length_pos.mpr hne
  have hlast : ((versionsFor (runCreates c file0 calls).committed c).map
      (fun r => r.version_number)).getLast? = some calls.length := by
    rw [hvn]
    exact range'_one_getLast calls.length hpos
  rw [List.getLast?_map] at hlast
  match hmem : (versionsFor (runCreates c file0 calls).committed c).getLast? with
  | none =>
    rw [hmem] at hlast
    cases hlast
  | some r =>
    rw [hmem] at hlast hact
    refine ⟨r, hact, ?_⟩
    simpa using hlast

/-- C4 witness: two creations for chunk 1 of the concrete database yield
versions `[1, 2]` with version 2 the single active one. -/
theorem C4_audio_version_witness :
    exFile.writerOpen = false ∧ versionsFor exFile.committed 1 = [] ∧
    ((versionsFor (runCreates 1 exFile
        [("v1.wav", "p1", "t1"), ("v2.wav", "p2", "t2")]).committed 1).map
      (fun r => r.version_number) = List.range' 1 2) ∧
    (∃ r, (versionsFor (runCreates 1 exFile
        [("v1.wav", "p1", "t1"), ("v2.wav", "p2", "t2")]).committed 1).filter
      (fun r => r.is_active) = [r] ∧ r.version_number = 2) :=
  ⟨rfl, rfl,
   (C4_audio_version_monotonic 1 exFile
     [("v1.wav", "p1", "t1"), ("v2.wav", "p2", "t2")] rfl rfl).1,
   (C4_audio_version_monotonic 1 exFile
     [("v1.wav", "p1", "t1"), ("v2.wav", "p2", "t2")] rfl rfl).2 (by decide)⟩

end Book2Audible

namespace Book2Audible

/-! ### Claim C3: re-stitching and Chapter Audio Versions -/

/-- Written from the claim's words, for comparison with the code: the
ids of the chunks whose audio is *actually included* in a re-stitch —
not excluded, status `completed`, audio path present and the file
existing.  (`restitch_chapter_audio` records a different list.) -/
def specIncludedChunkIds (db : DB) (fs : FS) (chapter_id : Nat)
    (exclude : List Nat) : List Nat :=
  ((get_chunks_by_chapter db chapter_id).filter (fun c =>
    decide (c.id ∉ exclude) && decide (c.status = "completed") &&
      (match c.audio_file_path with
       | some p => !decide (p = "") && (fsRead fs p).isSome
       | none => false))).map (fun c => c.id)

/-- C3 (counterexample).  On a chapter whose chunk 1 is completed with
existing audio while chunk 2 is still pending with no audio, re-stitching
with an empty exclusion set succeeds, but the recorded
`stitched_from_chunks` is `[1, 2]` — all non-excluded chunk ids — while
the chunk ids whose audio was actually included are `[1]`: the record is
not "exactly the chunk ids whose audio was actually included". -/
theorem C3_stitched_from_chunks_counterexample :
    (restitch_chapter_audio unitOps exFile exFS 1 none "TS" "t1").2 =
      .ok "out/Chapter_03_RESTITCHED_TS.wav" ∧
    (∀ r ∈ (restitch_chapter_audio unitOps exFile exFS 1 none "TS"
        "t1").1.1.committed.chapter_audio_versions,
      r.stitched_from_chunks = [1, 2]) ∧
    specIncludedChunkIds exFile.committed exFS 1 [] = [1] ∧
    ([1, 2] : List Nat) ≠ [1] := by
  refine ⟨by decide, by decide, by decide, by decide⟩

end Book2Audible

namespace Book2Audible

/-- What one `create_chapter_audio_version` call does when no other
writer is active: the chapter's old versions are deactivated in place
(so they stay retrievable), and a new active row is appended recording
the given included/excluded lists. -/
theorem create_cav_spec (file : DBFile) (chapter_id : Nat) (path : String)
    (stitched excluded : List Nat) (log now : String)
    (hw : file.writerOpen = false) :
    create_chapter_audio_version file chapter_id path stitched excluded log
        now =
      ({ committed :=
          { file.committed with
            chapter_audio_versions :=
              file.committed.chapter_audio_versions.map (fun r =>
                if r.chapter_id = chapter_id then { r with is_active := false }
                else r) ++
              [{ id := file.committed.nextCavId, chapter_id := chapter_id,
                 version_number :=
                   (cavFor { file.committed with
                       chapter_audio_versions :=
                         file.committed.chapter_audio_versions.map (fun r =>
                           if r.chapter_id = chapter_id then
                             { r with is_active := false }
                           else r) } chapter_id).foldl
                     (fun m r => max m r.version_number) 0 + 1,
                 audio_file_path := path, created_at := now, is_active := true,
                 stitched_from_chunks := stitched,
                 excluded_chunks := excluded, processing_log := log }],
            nextCavId := file.committed.nextCavId + 1 },
         writerOpen := false }, .ok file.committed.nextCavId) := by
  unfold create_chapter_audio_version withConnWrite
  rw [hw]
  simp only [Bool.false_eq_true, if_false]

end Book2Audible

namespace Book2Audible

/-- C3 (amended).  For every database, filesystem and pydub behaviour:
re-stitching fails with the descriptive `ValueError("No valid audio
chunks found for stitching")` when no chunk's audio qualifies, and on
success it appends one new active Chapter Audio Version whose
`stitched_from_chunks` lists ALL non-excluded chunk ids of the chapter —
including chunks whose audio was skipped for not being completed or for
missing audio (only the processing log reflects the actually-included
count) — whose `excluded_chunks` is exactly the exclusion list, while
every previous version of the chapter is kept in place, deactivated but
retrievable. -/
theorem C3_restitch_amended {σ : Type} (ops : PydubOps σ) (file : DBFile)
    (fs : FS) (chapter_id : Nat) (exclude_opt : Option (List Nat))
    (ts now : String) (hw : file.writerOpen = false) :
    (∀ chapter, get_chapter file.committed chapter_id = some chapter →
      (get_chunks_by_chapter file.committed chapter_id).isEmpty = false →
      (collectChunks fs (exclude_opt.getD [])
        (get_chunks_by_chapter file.committed chapter_id)).1 = [] →
      (restitch_chapter_audio ops file fs chapter_id exclude_opt ts now).2 =
        .error (.valueError "No valid audio chunks found for stitching")) ∧
    (∀ out, (restitch_chapter_audio ops file fs chapter_id exclude_opt ts
        now).2 = .ok out →
      ∃ newRow : ChapterAudioVersionRow,
        (restitch_chapter_audio ops file fs chapter_id exclude_opt ts
            now).1.1.committed.chapter_audio_versions =
          file.committed.chapter_audio_versions.map (fun r =>
            if r.chapter_id = chapter_id then { r with is_active := false }
            else r) ++ [newRow] ∧
        newRow.chapter_id = chapter_id ∧ newRow.is_active = true ∧
        newRow.audio_file_path = out ∧
        newRow.stitched_from_chunks =
          ((get_chunks_by_chapter file.committed chapter_id).filter
            (fun c => decide (c.id ∉ exclude_opt.getD []))).map
              (fun c => c.id) ∧
        newRow.excluded_chunks = exclude_opt.getD []) := by
  constructor
  · intro chapter hch hne hempty
    unfold restitch_chapter_audio
    rw [hch]
    simp only [hne, Bool.false_eq_true, if_false, hempty, List.isEmpty_nil,
      if_true]
  · intro out hout
    set r := restitch_chapter_audio ops file fs chapter_id exclude_opt ts now
      with hr
    clear_value r
    unfold restitch_chapter_audio at hr
    split at hr
    case _ =>
      rw [hr] at hout
      cases hout
    case _ chapter heqch =>
      simp only [] at hr
      split at hr
      case isTrue =>
        rw [hr] at hout
        cases hout
      case isFalse hne =>
        split at hr
        case isTrue =>
          rw [hr] at hout
          cases hout
        case isFalse hia =>
          split at hr
          case _ e heqfa =>
            rw [hr] at hout
            cases hout
          case _ final_audio heqfa =>
            subst hr
            rw [create_cav_spec file chapter_id _ _ _ _ now hw] at hout ⊢
            cases hout
            exact ⟨_, rfl, rfl, rfl, rfl, rfl, rfl⟩

/-- C3 witness: the amended theorem applied to the concrete database —
the error case on a filesystem missing every audio file, and the success
case on the real filesystem, certifying the recorded lists. -/
theorem C3_restitch_amended_witness :
    ((restitch_chapter_audio unitOps exFile (⟨[]⟩ : FS) 1 none "TS" "t1").2 =
      .error (.valueError "No valid audio chunks found for stitching")) ∧
    (∃ newRow : ChapterAudioVersionRow,
      (restitch_chapter_audio unitOps exFile exFS 1 none "TS"
          "t1").1.1.committed.chapter_audio_versions =
        exFile.committed.chapter_audio_versions.map (fun r =>
          if r.chapter_id = 1 then { r with is_active := false }
          else r) ++ [newRow] ∧
      newRow.chapter_id = 1 ∧ newRow.is_active = true ∧
      newRow.audio_file_path = "out/Chapter_03_RESTITCHED_TS.wav" ∧
      newRow.stitched_from_chunks =
        ((get_chunks_by_chapter exFile.committed 1).filter
          (fun c => decide (c.id ∉ (none : Option (List Nat)).getD []))).map
            (fun c => c.id) ∧
      newRow.excluded_chunks = (none : Option (List Nat)).getD []) :=
  ⟨(C3_restitch_amended unitOps exFile (⟨[]⟩ : FS) 1 none "TS" "t1" rfl).1
      exChapter (by decide) (by decide) (by decide),
   (C3_restitch_amended unitOps exFile exFS 1 none "TS" "t1" rfl).2
      "out/Chapter_03_RESTITCHED_TS.wav" (by decide)⟩

end Book2Audible

namespace Book2Audible

/-! ### Claim C8: chapter-level failure semantics -/

theorem chapterLoop_length {α : Type} (enabled : Bool)
    (preexist : Nat → Option α) (synth : Nat → Except String α)
    (verify : Nat → Except String VerifInfo) :
    ∀ (chunks : List String) (start : Nat),
      (chapterLoop enabled preexist synth verify start chunks).1.length =
        chunks.length := by
  intro chunks
  induction chunks with
  | nil => intro start; rfl
  | cons hd tl ih =>
    intro start
    simp only [chapterLoop, List.length_cons]
    rw [ih (start + 1)]

theorem chapterLoop_getElem {α : Type} (enabled : Bool)
    (preexist : Nat → Option α) (synth : Nat → Except String α)
    (verify : Nat → Except String VerifInfo) :
    ∀ (chunks : List String) (start i : Nat), i < chunks.length →
      (chapterLoop enabled preexist synth verify start chunks).1[i]? =
        some (chunkStep enabled preexist synth verify (start + i + 1)).1 ∧
      (chapterLoop enabled preexist synth verify start chunks).2[i]? =
        some (chunkStep enabled preexist synth verify (start + i + 1)).2 := by
  intro chunks
  induction chunks with
  | nil =>
    intro start i hi
    cases hi
  | cons hd tl ih =>
    intro start i hi
    match i with
    | 0 =>
      constructor <;> simp [chapterLoop]
    | j + 1 =>
      have hj : j < tl.length := by
        simp only [List.length_cons] at hi
        omega
      have := ih (start + 1) j hj
      simp only [chapterLoop, List.getElem?_cons_succ]
      have harith : start + 1 + j + 1 = start + (j + 1) + 1 := by omega
      rw [harith] at this
      exact this

theorem reconcile_length {α : Type} (regen : Nat → Except String α)
    (regenOk : Nat → Bool) :
    ∀ (slots : List (Option α)) (i : Nat) (succ : List α) (failed : List Nat),
      succ.length + (slots.filter (fun o => o.isSome)).length ≤
        (reconcile regen regenOk i slots succ failed).1.length := by
  intro slots
  induction slots with
  | nil =>
    intro i succ failed
    simp [reconcile]
  | cons slot rest ih =>
    intro i succ failed
    match slot with
    | some a =>
      have h := ih (i + 1) (succ ++ [a]) failed
      simp only [reconcile, List.filter_cons, Option.isSome_some, if_true,
        List.length_cons, List.length_append, List.length_singleton] at h ⊢
      omega
    | none =>
      simp only [reconcile, List.filter_cons, Option.isSome_none,
        Bool.false_eq_true, if_false]
      by_cases h3 : (failed ++ [i + 1]).length ≤ 3
      · rw [if_pos h3]
        match regen (i + 1) with
        | .ok a =>
          by_cases hok : regenOk (i + 1)
          · simp only [hok, if_true]
            have h := ih (i + 1) (succ ++ [a]) ((failed ++ [i + 1]).erase (i + 1))
            simp only [List.length_append, List.length_singleton] at h
            omega
          · simp only [hok, Bool.false_eq_true, if_false]
            rw [List.dropLast_concat]
            have h := ih (i + 1) succ
              (((failed ++ [i + 1]).erase (i + 1)) ++ [i + 1])
            omega
        | .error _ => exact ih (i + 1) succ (failed ++ [i + 1])
      · rw [if_neg h3]
        exact ih (i + 1) succ (failed ++ [i + 1])

/-- C8.  For every behaviour of the external TTS, verification and
regeneration services: (a) the chapter loop produces one result entry
per chunk and never aborts; (b) a synthesis exception at chunk `i+1` is
caught and recorded as that chunk's failed result (message preserved)
while the loop continues; (c) executed verification exceptions are
likewise caught, recorded as a failed verification, and the chunk's
audio is kept; (d) the chapter-level hard failure
`"All chunks failed to process"` is raised if and only if the successful
audio list is empty after all regeneration retries; (e) a single chunk
with pre-existing or successfully synthesized audio rules the hard
failure out. -/
theorem C8_chapter_failure_semantics {α : Type} (enabled : Bool)
    (preexist : Nat → Option α) (synth : Nat → Except String α)
    (verify : Nat → Except String VerifInfo) (regen : Nat → Except String α)
    (regenOk : Nat → Bool) (chunks : List String) :
    (chapterLoop enabled preexist synth verify 0 chunks).1.length =
      chunks.length ∧
    (∀ i e, i < chunks.length → preexist (i + 1) = none →
      synth (i + 1) = .error e →
      (chapterLoop enabled preexist synth verify 0 chunks).1[i]? =
        some { chunk_number := i + 1, error := some e,
               verification := ⟨false, some e⟩ }) ∧
    (∀ i e a, i < chunks.length → preexist (i + 1) = none →
      synth (i + 1) = .ok a → enabled = true → verify (i + 1) = .error e →
      (chapterLoop enabled preexist synth verify 0 chunks).1[i]? =
        some { chunk_number := i + 1, error := none,
               verification := ⟨false, some e⟩ } ∧
      (chapterLoop enabled preexist synth verify 0 chunks).2[i]? =
        some (some a)) ∧
    (∀ msg, process_single_chapter enabled preexist synth verify regen regenOk
        chunks = .error msg ↔
      (successfulChunks enabled preexist synth verify regen regenOk chunks = [] ∧
        msg = "All chunks failed to process")) ∧
    (∀ i, i < chunks.length →
      ((preexist (i + 1)).isSome ∨ ∃ a, synth (i + 1) = .ok a) →
      ∃ res, process_single_chapter enabled preexist synth verify regen regenOk
        chunks = .ok res) := by
  refine ⟨chapterLoop_length enabled preexist synth verify chunks 0, ?_, ?_, ?_, ?_⟩
  · intro i e hi hpre hsyn
    have h := (chapterLoop_getElem enabled preexist synth verify chunks 0 i hi).1
    rw [Nat.zero_add] at h
    rw [h]
    unfold chunkStep
    rw [hpre, hsyn]
  · intro i e a hi hpre hsyn hen hver
    have h := chapterLoop_getElem enabled preexist synth verify chunks 0 i hi
    rw [Nat.zero_add] at h
    rw [h.1, h.2]
    unfold chunkStep
    rw [hpre, hsyn, hen, hver]
    exact ⟨rfl, rfl⟩
  · intro msg
    unfold process_single_chapter
    by_cases hempty : (reconcile regen regenOk 0
        (chapterLoop enabled preexist synth verify 0 chunks).2 [] []).1.isEmpty
    · simp only [hempty, if_true]
      constructor
      · intro h
        injection h with h
        refine ⟨?_, h.symm⟩
        unfold successfulChunks
        exact List.isEmpty_iff.mp hempty
      · intro h
        rw [h.2]
    · simp only [hempty, Bool.false_eq_true, if_false]
      constructor
      · intro h
        cases h
      · intro h
        unfold successfulChunks at h
        rw [h.1] at hempty
        exact absurd rfl hempty
  · intro i hi hsrc
    have hslot := (chapterLoop_getElem enabled preexist synth verify chunks 0 i hi).2
    rw [Nat.zero_add] at hslot
    have hsome : ((chunkStep enabled preexist synth verify (i + 1)).2).isSome := by
      unfold chunkStep
      rcases hsrc with hpre | ⟨a, hsyn⟩
      · match hp : preexist (i + 1) with
        | some a => rfl
        | none => rw [hp] at hpre; cases hpre
      · match hp : preexist (i + 1) with
        | some a' => rfl
        | none => rw [hsyn]; rfl
    have hmem : (chunkStep enabled preexist synth verify (i + 1)).2 ∈
        (chapterLoop enabled preexist synth verify 0 chunks).2 := by
      exact List.getElem?_mem hslot
    have hcnt : 0 < (((chapterLoop enabled preexist synth verify 0
        chunks).2).filter (fun o => o.isSome)).length := by
      have : (chunkStep enabled preexist synth verify (i + 1)).2 ∈
          ((chapterLoop enabled preexist synth verify 0 chunks).2).filter
            (fun o => o.isSome) :=
        List.mem_filter.mpr ⟨hmem, hsome⟩
      exact List.length_pos.mpr (List.ne_nil_of_mem this)
    have hlen := reconcile_length regen regenOk
      (chapterLoop enabled preexist synth verify 0 chunks).2 0 [] []
    simp only [List.length_nil, Nat.zero_add] at hlen
    have hne : (reconcile regen regenOk 0
        (chapterLoop enabled preexist synth verify 0 chunks).2 [] []).1.isEmpty
        = false := by
      have : 0 < (reconcile regen regenOk 0
          (chapterLoop enabled preexist synth verify 0 chunks).2 [] []).1.length := by
        omega
      rcases hval : (reconcile regen regenOk 0
          (chapterLoop enabled preexist synth verify 0 chunks).2 [] []).1 with
        _ | ⟨x, xs⟩
      · rw [hval] at this
        cases this
      · rfl
    refine ⟨((reconcile regen regenOk 0
        (chapterLoop enabled preexist synth verify 0 chunks).2 [] []).1,
      (chapterLoop enabled preexist synth verify 0 chunks).1,
      (reconcile regen regenOk 0
        (chapterLoop enabled preexist synth verify 0 chunks).2 [] []).2), ?_⟩
    unfold process_single_chapter
    simp only [hne, Bool.false_eq_true, if_false]

end Book2Audible

namespace Book2Audible

/-- A concrete synthesis oracle: chunk 1 raises, chunk 2 succeeds. -/
def exSynth : Nat → Except String Nat :=
  fun n => if n = 1 then .error "boom" else .ok 42

/-- A concrete verification oracle that always raises. -/
def exVerify : Nat → Except String VerifInfo :=
  fun _ => .error "vfail"

/-- C8 witness: on a two-chunk chapter where chunk 1's synthesis raises
and chunk 2 succeeds, the theorem certifies the recorded failed result
for chunk 1 and the absence of the chapter-level hard failure. -/
theorem C8_chapter_failure_witness :
    ((chapterLoop true (fun _ => none) exSynth exVerify 0 ["a", "b"]).1[0]? =
      some { chunk_number := 1, error := some "boom",
             verification := ⟨false, some "boom"⟩ }) ∧
    (∃ res, process_single_chapter true (fun _ => none) exSynth exVerify
      (fun _ => .error "r") (fun _ => true) ["a", "b"] = .ok res) :=
  ⟨(C8_chapter_failure_semantics true (fun _ => none) exSynth exVerify
      (fun _ => .error "r") (fun _ => true) ["a", "b"]).2.1 0 "boom"
      (by decide) rfl (by decide),
   (C8_chapter_failure_semantics true (fun _ => none) exSynth exVerify
      (fun _ => .error "r") (fun _ => true) ["a", "b"]).2.2.2.2 1
      (by decide) (Or.inr ⟨42, by decide⟩)⟩

end Book2Audible
